import Mathlib

/-!
Shallow embedding of the cart/order consistency core of the e-commerce
backend (src/src/modules/cart/service/cart.service.ts and
src/src/modules/order/service/order.service.ts).

Conventions of the embedding:
* JavaScript numbers that hold integer counts/ids (quantities, stock,
  ids) are modelled as `Int`; monetary amounts (prices, totals) as `Rat`.
* The Redis cache is an association list from string keys to carts;
  `JSON.stringify`/`JSON.parse` round-tripping is modelled as the
  identity on the stored `Cart` value.
* A thrown exception is an `Except.error`; each throw site of the source
  gets its own constructor carrying exactly the data the source
  interpolates into the message.  Operations thread the mutable store
  explicitly and return it unchanged on the error paths, mirroring the
  fact that every `throw` in the source happens before any write.
* `Number(x.toFixed(2))` on a total is modelled as rounding a rational
  to two decimal places (`round2`).
* JavaScript truthiness of the optional `userId` / `sessionId`
  parameters is modelled exactly: `0` and the empty string are falsy.
-/

/-- Decimal rounding to two places, modelling `Number(total.toFixed(2))`
in `calculateCart`. -/
def round2 (x : Rat) : Rat := ((round (x * 100) : Int) : Rat) / 100

/-- A cart line, from `cart.types.ts` (`CartItem`). -/
structure CartItem where
  product_id : Int
  quantity : Int
  price : Rat
  name : String
  imageUrl : Option String
deriving Repr, DecidableEq

/-- A cart document, from `cart.types.ts` (`Cart`). -/
structure Cart where
  items : List CartItem
  total : Rat
  itemCount : Int
deriving Repr, DecidableEq

/-- A product row as selected by the services
(`id, name, price, stock_quantity, imageUrl`). -/
structure Product where
  id : Int
  name : String
  price : Rat
  stock_quantity : Int
  imageUrl : Option String
deriving Repr, DecidableEq

/-- Errors thrown by the cart service.  Each constructor corresponds to
one throw site and carries the data interpolated into its message:
`identityRequired` is the `Error("userId or sessionId required")` of
`getCartKey`; `productNotFound` and `notInCart` are `NotFoundError`s;
`insufficientStock` (message `Insufficient stock. Available: ...`) and
`insufficientStockCumulative` (message adding `In cart: ...`) are the two
`BadRequestError` stock failures. -/
inductive CartError where
  | identityRequired : CartError
  | productNotFound (productId : Int) : CartError
  | insufficientStock (available : Int) : CartError
  | insufficientStockCumulative (available : Int) (inCart : Int) : CartError
  | notInCart (productId : Int) : CartError
deriving Repr, DecidableEq

/-- `true` iff the error is one of the two insufficient-stock throws
(the spec's `InsufficientStockError`). -/
def CartError.isInsufficientStock : CartError → Bool
  | CartError.insufficientStock _ => true
  | CartError.insufficientStockCumulative _ _ => true
  | _ => false

/-- The Redis cache, keyed by cart key. -/
abbrev Cache := List (String × Cart)

/-- `redisClient.get` for cart documents. -/
def cacheGet (cache : Cache) (key : String) : Option Cart :=
  (cache.find? (fun kv => kv.1 = key)).map (fun kv => kv.2)

/-- `redisClient.setEx` (TTL not modelled beyond the overwrite). -/
def cacheSet (cache : Cache) (key : String) (cart : Cart) : Cache :=
  (key, cart) :: cache.filter (fun kv => kv.1 ≠ key)

/-- `redisClient.del`. -/
def cacheDel (cache : Cache) (key : String) : Cache :=
  cache.filter (fun kv => kv.1 ≠ key)

/-- `getCartKey` of the cart service.  The source tests `if (userId)`
then `if (sessionId)`, so `userId = 0` and `sessionId = ""` are treated
as absent (JavaScript truthiness). -/
def getCartKey (userId : Option Int) (sessionId : Option String) :
    Except CartError String :=
  if userId.getD 0 ≠ 0 then
    Except.ok ("cart:user:" ++ toString (userId.getD 0))
  else if sessionId.getD "" ≠ "" then
    Except.ok ("cart:session:" ++ sessionId.getD "")
  else
    Except.error CartError.identityRequired

/-- The empty cart returned by `getCart` on a cache miss. -/
def emptyCart : Cart := { items := [], total := 0, itemCount := 0 }

/-- `getCart` of the cart service: read the key, a miss is the empty
cart. -/
def getCart (userId : Option Int) (sessionId : Option String)
    (cache : Cache) : Except CartError Cart :=
  (getCartKey userId sessionId).map
    (fun key => (cacheGet cache key).getD emptyCart)

/-- `saveCart` of the cart service: derive the key again and overwrite
the entry (`setEx`). -/
def saveCart (cart : Cart) (userId : Option Int) (sessionId : Option String)
    (cache : Cache) : Except CartError Cache :=
  (getCartKey userId sessionId).map (fun key => cacheSet cache key cart)

/-- Sum of `item.price * item.quantity`, the first `reduce` of
`calculateCart`. -/
def sumTotal (items : List CartItem) : Rat :=
  items.foldl (fun sum item => sum + item.price * (item.quantity : Rat)) 0

/-- Sum of quantities, the second `reduce` of `calculateCart`. -/
def sumCount (items : List CartItem) : Int :=
  items.foldl (fun sum item => sum + item.quantity) 0

/-- `calculateCart` of the cart service. -/
def calculateCart (items : List CartItem) : Cart :=
  { items := items
    total := round2 (sumTotal items)
    itemCount := sumCount items }

/-- Set the quantity of the first line with the given product id
(`cart.items[existingItemIndex].quantity = newQuantity`). -/
def setQuantityFirst : List CartItem → Int → Int → List CartItem
  | [], _, _ => []
  | item :: rest, pid, q =>
    if item.product_id = pid then { item with quantity := q } :: rest
    else item :: setQuantityFirst rest pid q

/-- Add to the quantity of the first line with the given product id
(`userCart.items[existingItemIndex].quantity += sessionItem.quantity`). -/
def addQuantityFirst : List CartItem → Int → Int → List CartItem
  | [], _, _ => []
  | item :: rest, pid, dq =>
    if item.product_id = pid then
      { item with quantity := item.quantity + dq } :: rest
    else item :: addQuantityFirst rest pid dq

/-- Remove the first line with the given product id
(`cart.items.splice(itemIndex, 1)`). -/
def removeFirst : List CartItem → Int → List CartItem
  | [], _ => []
  | item :: rest, pid =>
    if item.product_id = pid then rest else item :: removeFirst rest pid

/-- `addToCart` of the cart service.  Checks run in source order:
product lookup, delta stock check, cart read (which resolves the key),
cumulative stock check for an existing line, then recompute and save. -/
def addToCart (product_id quantity : Int) (userId : Option Int)
    (sessionId : Option String) (products : List Product)
    (cache : Cache) : Except CartError Cart × Cache :=
  match products.find? (fun p => p.id = product_id) with
  | none => (Except.error (CartError.productNotFound product_id), cache)
  | some product =>
    if product.stock_quantity < quantity then
      (Except.error (CartError.insufficientStock product.stock_quantity),
       cache)
    else
      match getCart userId sessionId cache with
      | Except.error e => (Except.error e, cache)
      | Except.ok cart =>
        match cart.items.find? (fun item => item.product_id = product_id) with
        | some existingItem =>
          let newQuantity := existingItem.quantity + quantity
          if product.stock_quantity < newQuantity then
            (Except.error (CartError.insufficientStockCumulative
              product.stock_quantity existingItem.quantity), cache)
          else
            let updatedCart :=
              calculateCart (setQuantityFirst cart.items product_id newQuantity)
            match saveCart updatedCart userId sessionId cache with
            | Except.error e => (Except.error e, cache)
            | Except.ok cache1 => (Except.ok updatedCart, cache1)
        | none =>
          let updatedCart := calculateCart (cart.items ++
            [{ product_id := product.id, quantity := quantity,
               price := product.price, name := product.name,
               imageUrl := product.imageUrl }])
          match saveCart updatedCart userId sessionId cache with
          | Except.error e => (Except.error e, cache)
          | Except.ok cache1 => (Except.ok updatedCart, cache1)

/-- `updateCartItem` of the cart service. -/
def updateCartItem (productId quantity : Int) (userId : Option Int)
    (sessionId : Option String) (products : List Product)
    (cache : Cache) : Except CartError Cart × Cache :=
  match getCart userId sessionId cache with
  | Except.error e => (Except.error e, cache)
  | Except.ok cart =>
    match cart.items.find? (fun item => item.product_id = productId) with
    | none => (Except.error (CartError.notInCart productId), cache)
    | some _ =>
      if quantity = 0 then
        let updatedCart := calculateCart (removeFirst cart.items productId)
        match saveCart updatedCart userId sessionId cache with
        | Except.error e => (Except.error e, cache)
        | Except.ok cache1 => (Except.ok updatedCart, cache1)
      else
        match products.find? (fun p => p.id = productId) with
        | none => (Except.error (CartError.productNotFound productId), cache)
        | some product =>
          if product.stock_quantity < quantity then
            (Except.error
              (CartError.insufficientStock product.stock_quantity), cache)
          else
            let updatedCart :=
              calculateCart (setQuantityFirst cart.items productId quantity)
            match saveCart updatedCart userId sessionId cache with
            | Except.error e => (Except.error e, cache)
            | Except.ok cache1 => (Except.ok updatedCart, cache1)

/-- `removeFromCart` of the cart service. -/
def removeFromCart (productId : Int) (userId : Option Int)
    (sessionId : Option String) (cache : Cache) :
    Except CartError Cart × Cache :=
  match getCart userId sessionId cache with
  | Except.error e => (Except.error e, cache)
  | Except.ok cart =>
    match cart.items.find? (fun item => item.product_id = productId) with
    | none => (Except.error (CartError.notInCart productId), cache)
    | some _ =>
      let updatedCart := calculateCart (removeFirst cart.items productId)
      match saveCart updatedCart userId sessionId cache with
      | Except.error e => (Except.error e, cache)
      | Except.ok cache1 => (Except.ok updatedCart, cache1)

/-- `clearCart` of the cart service. -/
def clearCart (userId : Option Int) (sessionId : Option String)
    (cache : Cache) : Except CartError Unit × Cache :=
  match getCartKey userId sessionId with
  | Except.error e => (Except.error e, cache)
  | Except.ok key => (Except.ok (), cacheDel cache key)

/-- One step of the merge loop of `mergeCart`: if the accumulated user
items already hold the session item's product, add its quantity to the
first such line, else append the session line as-is. -/
def mergeItem (acc : List CartItem) (sessionItem : CartItem) :
    List CartItem :=
  if acc.any (fun item => item.product_id = sessionItem.product_id) then
    addQuantityFirst acc sessionItem.product_id sessionItem.quantity
  else
    acc ++ [sessionItem]

/-- `mergeCart` of the cart service: read the session cart (by session
key) and the user cart (by user key); an empty session cart is returned
untouched with no write; otherwise fold the session lines into the user
lines, recompute, save under the user key and delete the session key.
The function consults no product data: merge performs no stock
re-validation. -/
def mergeCart (userId : Int) (sessionId : String) (cache : Cache) :
    Except CartError Cart × Cache :=
  match getCart none (some sessionId) cache with
  | Except.error e => (Except.error e, cache)
  | Except.ok sessionCart =>
    match getCart (some userId) none cache with
    | Except.error e => (Except.error e, cache)
    | Except.ok userCart =>
      if sessionCart.items.length = 0 then
        (Except.ok userCart, cache)
      else
        let mergedItems := sessionCart.items.foldl mergeItem userCart.items
        let mergedCart := calculateCart mergedItems
        match saveCart mergedCart (some userId) none cache with
        | Except.error e => (Except.error e, cache)
        | Except.ok cache1 =>
          match clearCart none (some sessionId) cache1 with
          | (Except.error e, cache2) => (Except.error e, cache2)
          | (Except.ok _, cache2) => (Except.ok mergedCart, cache2)

/-! ## Order module (order.service.ts) -/

/-- `OrderStatus` enum of the Prisma schema. -/
inductive OrderStatus where
  | PENDING | PROCESSING | SHIPPED | DELIVERED | CANCELLED | REFUNDED
deriving Repr, DecidableEq

/-- The status transition table of `updateOrderStatus`
(`validTransitions`). -/
def validTransitions : OrderStatus → List OrderStatus
  | OrderStatus.PENDING => [OrderStatus.PROCESSING, OrderStatus.CANCELLED]
  | OrderStatus.PROCESSING => [OrderStatus.SHIPPED, OrderStatus.CANCELLED]
  | OrderStatus.SHIPPED => [OrderStatus.DELIVERED]
  | OrderStatus.DELIVERED => [OrderStatus.REFUNDED]
  | OrderStatus.CANCELLED => []
  | OrderStatus.REFUNDED => []

/-- One requested item of `CreateOrderInput` (`order.schema.ts`: only
`product_id` and `quantity`; no client-supplied price exists). -/
structure OrderItemInput where
  product_id : Int
  quantity : Int
deriving Repr, DecidableEq

/-- One element of `orderItemsData` inside `createOrder`: the requested
item together with the price fetched from the product row. -/
structure OrderItemData where
  product_id : Int
  quantity : Int
  price : Rat
deriving Repr, DecidableEq

/-- A customer row restricted to the aggregate fields `createOrder`
mutates. -/
structure Customer where
  id : Int
  total_orders : Int
  total_spent : Rat
  last_purchase_date : Option Int
deriving Repr, DecidableEq

/-- An `Order` row. -/
structure OrderRow where
  id : Int
  customer_id : Int
  order_date : Int
  status : OrderStatus
  total : Rat
deriving Repr, DecidableEq

/-- An `OrderItem` row. -/
structure OrderItemRow where
  id : Int
  order_id : Int
  product_id : Int
  quantity : Int
  price : Rat
deriving Repr, DecidableEq

/-- The relational store as touched by the order service. The `next...`
counters model the autoincrement primary keys. -/
structure Db where
  products : List Product
  customers : List Customer
  orders : List OrderRow
  orderItems : List OrderItemRow
  nextOrderId : Int
  nextOrderItemId : Int
deriving Repr, DecidableEq

/-- Errors of the order service, one constructor per throw site,
carrying the data its message interpolates. `productsNotFound` and
`orderNotFound` are `NotFoundError`s; `insufficientStock` and
`invalidTransition` are `BadRequestError`s; `customerNotFound` models
the storage-layer failure (and transaction rollback) when the
`tx.customer.update` target row is absent; `assertionFailed` models the
runtime crash of the non-null assertion `products.find(...)!`. -/
inductive OrderError where
  | productsNotFound (missingIds : List Int) : OrderError
  | insufficientStock (name : String) (available requested : Int) : OrderError
  | orderNotFound (orderId : Int) : OrderError
  | invalidTransition (fromStatus toStatus : OrderStatus) : OrderError
  | customerNotFound (customerId : Int) : OrderError
  | assertionFailed : OrderError
deriving Repr, DecidableEq

/-- The response shape of `createOrder` (`CreateOrderResponse`). -/
structure CreateOrderResponse where
  order : OrderRow
  items : List OrderItemRow
deriving Repr, DecidableEq

/-- The `input.items.map(...)` pass of `createOrder` that pairs each
item with its freshly fetched product price and throws on the first
item whose quantity exceeds the product's stock. -/
def buildOrderItemsData (products : List Product) :
    List OrderItemInput → Except OrderError (List OrderItemData)
  | [] => Except.ok []
  | item :: rest =>
    match products.find? (fun p => p.id = item.product_id) with
    | none => Except.error OrderError.assertionFailed
    | some product =>
      if product.stock_quantity < item.quantity then
        Except.error (OrderError.insufficientStock product.name
          product.stock_quantity item.quantity)
      else
        (buildOrderItemsData products rest).map
          (fun restData =>
            ({ product_id := item.product_id, quantity := item.quantity,
               price := product.price } : OrderItemData) :: restData)

/-- `tx.product.update` with `stock_quantity: { decrement: qty }`. -/
def updateStock (products : List Product) (pid qty : Int) : List Product :=
  products.map (fun p =>
    if p.id = pid then { p with stock_quantity := p.stock_quantity - qty }
    else p)

/-- `tx.customer.update` incrementing `total_orders` and `total_spent`
and setting `last_purchase_date`. -/
def updateCustomerStats (customers : List Customer) (cid : Int)
    (total : Rat) (now : Int) : List Customer :=
  customers.map (fun c =>
    if c.id = cid then
      { c with total_orders := c.total_orders + 1,
               total_spent := c.total_spent + total,
               last_purchase_date := some now }
    else c)

/-- The `tx.orderItem.create` calls: one row per `orderItemsData`
entry, with fresh autoincremented ids. -/
def mkOrderItemRows (orderId : Int) (firstId : Int) :
    List OrderItemData → List OrderItemRow
  | [] => []
  | d :: rest =>
    { id := firstId, order_id := orderId, product_id := d.product_id,
      quantity := d.quantity, price := d.price } ::
      mkOrderItemRows orderId (firstId + 1) rest

/-- `createOrder` of the order service: batch-fetch the requested
products, fail `NotFoundError` when the row count differs from the
request count (listing the requested ids not returned), build the order
item data with fresh prices (failing `BadRequestError` on insufficient
stock), sum the total, then atomically create the order and its items,
decrement the stocks and update the customer aggregates.  Every error
path returns the store unchanged (nothing is written before the
transaction, and the transaction is all-or-nothing). -/
def createOrder (customerId : Int) (items : List OrderItemInput)
    (now : Int) (db : Db) : Except OrderError CreateOrderResponse × Db :=
  let productIds := items.map (fun item => item.product_id)
  let products := db.products.filter (fun p => productIds.contains p.id)
  if products.length ≠ productIds.length then
    let foundIds := products.map (fun p => p.id)
    let missingIds := productIds.filter (fun id => ¬ foundIds.contains id)
    (Except.error (OrderError.productsNotFound missingIds), db)
  else
    match buildOrderItemsData products items with
    | Except.error e => (Except.error e, db)
    | Except.ok orderItemsData =>
      let total := orderItemsData.foldl
        (fun sum d => sum + d.price * (d.quantity : Rat)) 0
      if db.customers.any (fun c => c.id = customerId) then
        let order : OrderRow :=
          { id := db.nextOrderId, customer_id := customerId,
            order_date := now, status := OrderStatus.PENDING, total := total }
        let createdItems :=
          mkOrderItemRows order.id db.nextOrderItemId orderItemsData
        (Except.ok { order := order, items := createdItems },
         { products := orderItemsData.foldl
             (fun ps d => updateStock ps d.product_id d.quantity) db.products
           customers := updateCustomerStats db.customers customerId total now
           orders := db.orders ++ [order]
           orderItems := db.orderItems ++ createdItems
           nextOrderId := db.nextOrderId + 1
           nextOrderItemId := db.nextOrderItemId + createdItems.length })
      else
        (Except.error (OrderError.customerNotFound customerId), db)

/-- `updateOrderStatus` of the order service: fetch the order, check the
transition table, persist the new status. -/
def updateOrderStatus (orderId : Int) (newStatus : OrderStatus) (db : Db) :
    Except OrderError OrderRow × Db :=
  match db.orders.find? (fun o => o.id = orderId) with
  | none => (Except.error (OrderError.orderNotFound orderId), db)
  | some order =>
    if (validTransitions order.status).contains newStatus then
      let updatedOrder := { order with status := newStatus }
      (Except.ok updatedOrder,
       { db with orders := db.orders.map (fun o =>
           if o.id = orderId then { o with status := newStatus } else o) })
    else
      (Except.error (OrderError.invalidTransition order.status newStatus), db)

/-! ## Derived observations used by the theorems -/

/-- Stock of a product id in the relational store. -/
def stockOf (db : Db) (pid : Int) : Option Int :=
  (db.products.find? (fun p => p.id = pid)).map (fun p => p.stock_quantity)

/-- Customer row by id. -/
def customerOf (db : Db) (cid : Int) : Option Customer :=
  db.customers.find? (fun c => c.id = cid)

/-- Total quantity a cart holds of a product id (sum over its lines with
that id; for well-formed carts there is at most one such line). -/
def qtyOf (items : List CartItem) (pid : Int) : Int :=
  ((items.filter (fun item => item.product_id = pid)).map
    (fun item => item.quantity)).sum

/-- A cart is calculation-consistent: its stored `total` and `itemCount`
are exactly what `calculateCart` computes from its lines. -/
def cartCalcConsistent (c : Cart) : Prop :=
  c.total = round2 (sumTotal c.items) ∧ c.itemCount = sumCount c.items

/-- A price is a whole number of cents. -/
def centPrice (x : Rat) : Prop := ∃ n : Int, x = (n : Rat) / 100

/-- The cart invariant of the spec: `total` is the plain sum of
`price * quantity` and `itemCount` the sum of quantities. -/
def cartInv (c : Cart) : Prop :=
  c.total = sumTotal c.items ∧ c.itemCount = sumCount c.items

/-- All line prices of a cart are whole cents. -/
def cartCentPrices (c : Cart) : Prop :=
  ∀ item ∈ c.items, centPrice item.price

/-- Every cart stored in the cache is calculation-consistent with
whole-cent prices. -/
def cacheWF (cache : Cache) : Prop :=
  ∀ kv ∈ cache, cartCalcConsistent kv.2 ∧ cartCentPrices kv.2

/-! ## Generic lemmas -/

theorem foldl_add_eq {α β : Type} [AddCommMonoid β] (f : α → β) (l : List α) :
    ∀ a : β, l.foldl (fun s i => s + f i) a = a + (l.map f).sum := by
  induction l with
  | nil => intro a; simp
  | cons x l ih => intro a; simp [ih, add_assoc]

theorem sumTotal_eq_map_sum (items : List CartItem) :
    sumTotal items =
      (items.map (fun item => item.price * (item.quantity : Rat))).sum := by
  simpa using
    foldl_add_eq (fun item : CartItem => item.price * (item.quantity : Rat))
      items 0

theorem sumCount_eq_map_sum (items : List CartItem) :
    sumCount items = (items.map (fun item => item.quantity)).sum := by
  simpa using foldl_add_eq (fun item : CartItem => item.quantity) items 0

theorem round2_cent {x : Rat} (h : centPrice x) : round2 x = x := by
  obtain ⟨n, rfl⟩ := h
  have h100 : ((100 : Rat)) ≠ 0 := by norm_num
  unfold round2
  rw [div_mul_cancel₀ _ h100, round_intCast]

theorem centPrice_zero : centPrice 0 := ⟨0, by norm_num⟩

theorem centPrice_add {x y : Rat} (hx : centPrice x) (hy : centPrice y) :
    centPrice (x + y) := by
  obtain ⟨m, rfl⟩ := hx
  obtain ⟨n, rfl⟩ := hy
  exact ⟨m + n, by push_cast; ring⟩

theorem centPrice_mul_int {x : Rat} (hx : centPrice x) (q : Int) :
    centPrice (x * (q : Rat)) := by
  obtain ⟨m, rfl⟩ := hx
  exact ⟨m * q, by push_cast; ring⟩

theorem centPrice_sum {l : List Rat} (h : ∀ x ∈ l, centPrice x) :
    centPrice l.sum := by
  induction l with
  | nil => exact centPrice_zero
  | cons x l ih =>
    rw [List.sum_cons]
    exact centPrice_add (h x (by simp)) (ih fun y hy => h y (by simp [hy]))

theorem sumTotal_cent {items : List CartItem}
    (h : ∀ item ∈ items, centPrice item.price) : centPrice (sumTotal items) := by
  rw [sumTotal_eq_map_sum]
  refine centPrice_sum ?_
  intro x hx
  simp only [List.mem_map] at hx
  obtain ⟨item, hitem, rfl⟩ := hx
  exact centPrice_mul_int (h item hitem) _

/-! ## Cart invariant lemmas -/

theorem calculateCart_calcConsistent (items : List CartItem) :
    cartCalcConsistent (calculateCart items) := ⟨rfl, rfl⟩

theorem cartInv_of_wf {c : Cart} (h1 : cartCalcConsistent c)
    (h2 : cartCentPrices c) : cartInv c :=
  ⟨by rw [h1.1]; exact round2_cent (sumTotal_cent h2), h1.2⟩

theorem calculateCart_inv {items : List CartItem}
    (h : ∀ item ∈ items, centPrice item.price) :
    cartInv (calculateCart items) :=
  cartInv_of_wf (calculateCart_calcConsistent items) h

theorem emptyCart_calcConsistent : cartCalcConsistent emptyCart := by
  constructor
  · show (0 : Rat) = round2 (sumTotal [])
    rw [show sumTotal [] = 0 from rfl]
    rw [round2_cent centPrice_zero]
  · rfl

theorem emptyCart_centPrices : cartCentPrices emptyCart := by
  intro item hitem
  simp [emptyCart] at hitem

theorem setQuantityFirst_map_price (l : List CartItem) (pid q : Int) :
    (setQuantityFirst l pid q).map (fun i => i.price) =
      l.map (fun i => i.price) := by
  induction l with
  | nil => rfl
  | cons x l ih =>
    by_cases h : x.product_id = pid <;> simp [setQuantityFirst, h, ih]

theorem setQuantityFirst_map_pid (l : List CartItem) (pid q : Int) :
    (setQuantityFirst l pid q).map (fun i => i.product_id) =
      l.map (fun i => i.product_id) := by
  induction l with
  | nil => rfl
  | cons x l ih =>
    by_cases h : x.product_id = pid <;> simp [setQuantityFirst, h, ih]

theorem addQuantityFirst_map_price (l : List CartItem) (pid dq : Int) :
    (addQuantityFirst l pid dq).map (fun i => i.price) =
      l.map (fun i => i.price) := by
  induction l with
  | nil => rfl
  | cons x l ih =>
    by_cases h : x.product_id = pid <;> simp [addQuantityFirst, h, ih]

theorem addQuantityFirst_map_pid (l : List CartItem) (pid dq : Int) :
    (addQuantityFirst l pid dq).map (fun i => i.product_id) =
      l.map (fun i => i.product_id) := by
  induction l with
  | nil => rfl
  | cons x l ih =>
    by_cases h : x.product_id = pid <;> simp [addQuantityFirst, h, ih]

theorem removeFirst_subset (l : List CartItem) (pid : Int) :
    ∀ item ∈ removeFirst l pid, item ∈ l := by
  induction l with
  | nil => intro item h; simp [removeFirst] at h
  | cons x l ih =>
    intro item h
    by_cases hx : x.product_id = pid
    · simp only [removeFirst, if_pos hx] at h
      exact List.mem_cons_of_mem x h
    · simp only [removeFirst, if_neg hx, List.mem_cons] at h
      rcases h with h | h
      · exact h ▸ List.mem_cons_self x l
      · exact List.mem_cons_of_mem x (ih item h)

theorem centPrices_of_map_price_eq {l l' : List CartItem}
    (hmap : l'.map (fun i => i.price) = l.map (fun i => i.price))
    (h : ∀ item ∈ l, centPrice item.price) :
    ∀ item ∈ l', centPrice item.price := by
  intro item hitem
  have hm : item.price ∈ l'.map (fun i => i.price) :=
    List.mem_map_of_mem _ hitem
  rw [hmap] at hm
  simp only [List.mem_map] at hm
  obtain ⟨j, hj, hpe⟩ := hm
  rw [← hpe]
  exact h j hj

/-! ## Cache lemmas -/

theorem cacheGet_set_self (cache : Cache) (key : String) (cart : Cart) :
    cacheGet (cacheSet cache key cart) key = some cart := by
  simp [cacheGet, cacheSet]

theorem cacheGet_set_ne (cache : Cache) (key key' : String) (cart : Cart)
    (h : key' ≠ key) :
    cacheGet (cacheSet cache key cart) key' = cacheGet cache key' := by
  simp only [cacheGet, cacheSet]
  rw [List.find?_cons_of_neg _ (by simp [Ne.symm h])]
  congr 1
  induction cache with
  | nil => rfl
  | cons kv rest ih =>
    by_cases hk : kv.1 = key
    · rw [List.filter_cons_of_neg (by simp [hk])]
      rw [List.find?_cons_of_neg _
        (by simp [hk]; exact fun e => h e.symm)]
      exact ih
    · rw [List.filter_cons_of_pos (by simp [hk])]
      by_cases hk' : kv.1 = key'
      · rw [List.find?_cons_of_pos _ (by simp [hk']),
          List.find?_cons_of_pos _ (by simp [hk'])]
      · rw [List.find?_cons_of_neg _ (by simp [hk']),
          List.find?_cons_of_neg _ (by simp [hk'])]
        exact ih

theorem cacheGet_del_self (cache : Cache) (key : String) :
    cacheGet (cacheDel cache key) key = none := by
  have h : (cacheDel cache key).find? (fun kv => kv.1 = key) = none := by
    rw [List.find?_eq_none]
    intro kv hkv
    have := List.of_mem_filter hkv
    simpa using this
  simp [cacheGet, h]

theorem cacheGet_del_ne (cache : Cache) (key key' : String) (h : key' ≠ key) :
    cacheGet (cacheDel cache key) key' = cacheGet cache key' := by
  simp only [cacheGet, cacheDel]
  congr 1
  induction cache with
  | nil => rfl
  | cons kv rest ih =>
    by_cases hk : kv.1 = key
    · rw [List.filter_cons_of_neg (by simp [hk])]
      rw [List.find?_cons_of_neg _
        (by simp [hk]; exact fun e => h e.symm)]
      exact ih
    · rw [List.filter_cons_of_pos (by simp [hk])]
      by_cases hk' : kv.1 = key'
      · rw [List.find?_cons_of_pos _ (by simp [hk']),
          List.find?_cons_of_pos _ (by simp [hk'])]
      · rw [List.find?_cons_of_neg _ (by simp [hk']),
          List.find?_cons_of_neg _ (by simp [hk'])]
        exact ih

theorem cacheWF_set {cache : Cache} {key : String} {cart : Cart}
    (hc : cacheWF cache) (h1 : cartCalcConsistent cart)
    (h2 : cartCentPrices cart) : cacheWF (cacheSet cache key cart) := by
  intro kv hkv
  simp only [cacheSet, List.mem_cons] at hkv
  rcases hkv with rfl | hkv
  · exact ⟨h1, h2⟩
  · exact hc kv (List.mem_of_mem_filter hkv)

theorem cacheWF_del {cache : Cache} {key : String} (hc : cacheWF cache) :
    cacheWF (cacheDel cache key) :=
  fun kv hkv => hc kv (List.mem_of_mem_filter hkv)

theorem cacheWF_get {cache : Cache} (hc : cacheWF cache) (key : String) :
    cartCalcConsistent ((cacheGet cache key).getD emptyCart) ∧
      cartCentPrices ((cacheGet cache key).getD emptyCart) := by
  unfold cacheGet
  cases hfind : cache.find? (fun kv => kv.1 = key) with
  | none => exact ⟨emptyCart_calcConsistent, emptyCart_centPrices⟩
  | some kv =>
    simp only [Option.map_some', Option.getD_some]
    exact hc kv (List.mem_of_find?_eq_some hfind)

/-! ## Shape lemmas for the cart operations -/

theorem getCart_ok {userId : Option Int} {sessionId : Option String}
    {cache : Cache} {cart : Cart}
    (h : getCart userId sessionId cache = Except.ok cart) :
    ∃ key, getCartKey userId sessionId = Except.ok key ∧
      cart = (cacheGet cache key).getD emptyCart := by
  unfold getCart at h
  cases hk : getCartKey userId sessionId with
  | error e => rw [hk] at h; simp [Except.map] at h
  | ok key =>
    rw [hk] at h
    simp only [Except.map, Except.ok.injEq] at h
    exact ⟨key, rfl, h.symm⟩

theorem saveCart_ok {cart : Cart} {userId : Option Int}
    {sessionId : Option String} {cache cache1 : Cache}
    (h : saveCart cart userId sessionId cache = Except.ok cache1) :
    ∃ key, getCartKey userId sessionId = Except.ok key ∧
      cache1 = cacheSet cache key cart := by
  unfold saveCart at h
  cases hk : getCartKey userId sessionId with
  | error e => rw [hk] at h; simp [Except.map] at h
  | ok key =>
    rw [hk] at h
    simp only [Except.map, Except.ok.injEq] at h
    exact ⟨key, rfl, h.symm⟩

theorem getCart_eval {userId : Option Int} {sessionId : Option String}
    {key : String} (cache : Cache)
    (hkey : getCartKey userId sessionId = Except.ok key) :
    getCart userId sessionId cache =
      Except.ok ((cacheGet cache key).getD emptyCart) := by
  unfold getCart
  rw [hkey]
  rfl

theorem saveCart_eval {userId : Option Int} {sessionId : Option String}
    {key : String} (cart : Cart) (cache : Cache)
    (hkey : getCartKey userId sessionId = Except.ok key) :
    saveCart cart userId sessionId cache =
      Except.ok (cacheSet cache key cart) := by
  unfold saveCart
  rw [hkey]
  rfl

theorem mergeItem_centPrices {acc : List CartItem} {s : CartItem}
    (ha : ∀ i ∈ acc, centPrice i.price) (hs : centPrice s.price) :
    ∀ i ∈ mergeItem acc s, centPrice i.price := by
  intro i hi
  unfold mergeItem at hi
  by_cases hc : acc.any (fun item => item.product_id = s.product_id)
  · rw [if_pos hc] at hi
    exact centPrices_of_map_price_eq (addQuantityFirst_map_price acc _ _)
      ha i hi
  · rw [if_neg hc] at hi
    rcases List.mem_append.1 hi with h | h
    · exact ha i h
    · simp only [List.mem_singleton] at h
      exact h ▸ hs

theorem foldl_mergeItem_centPrices {sess acc : List CartItem}
    (ha : ∀ i ∈ acc, centPrice i.price)
    (hs : ∀ i ∈ sess, centPrice i.price) :
    ∀ i ∈ sess.foldl mergeItem acc, centPrice i.price := by
  induction sess generalizing acc with
  | nil => simpa using ha
  | cons s sess ih =>
    simp only [List.foldl_cons]
    exact ih (mergeItem_centPrices ha (hs s (by simp)))
      (fun i hi => hs i (by simp [hi]))

/-- Any successful `addToCart` returns a recomputed, whole-cent cart and
keeps the cache well-formed. -/
theorem addToCart_wf {pid q : Int} {userId : Option Int}
    {sessionId : Option String} {products : List Product} {cache : Cache}
    (hcache : cacheWF cache) (hprod : ∀ p ∈ products, centPrice p.price) :
    ∀ c, (addToCart pid q userId sessionId products cache).1 = Except.ok c →
      (cartCalcConsistent c ∧ cartCentPrices c) ∧
        cacheWF (addToCart pid q userId sessionId products cache).2 := by
  intro c
  unfold addToCart
  cases hfind : products.find? (fun p => p.id = pid) with
  | none => intro h; simp at h
  | some product =>
    dsimp only
    have hpcent : centPrice product.price :=
      hprod product (List.mem_of_find?_eq_some hfind)
    by_cases hstock : product.stock_quantity < q
    · rw [if_pos hstock]; intro h; simp at h
    · rw [if_neg hstock]
      cases hget : getCart userId sessionId cache with
      | error e => intro h; simp at h
      | ok cart =>
        dsimp only
        obtain ⟨key, hkey, hcart⟩ := getCart_ok hget
        have hcwf := cacheWF_get hcache key
        rw [← hcart] at hcwf
        cases hline : cart.items.find?
            (fun item => item.product_id = pid) with
        | some existing =>
          dsimp only
          by_cases hcum : product.stock_quantity < existing.quantity + q
          · rw [if_pos hcum]; intro h; simp at h
          · rw [if_neg hcum]
            rw [saveCart_eval _ _ hkey]
            intro h
            simp only [Except.ok.injEq] at h
            subst h
            have hcent : ∀ i ∈ setQuantityFirst cart.items pid
                (existing.quantity + q), centPrice i.price :=
              centPrices_of_map_price_eq
                (setQuantityFirst_map_price cart.items pid _) hcwf.2
            exact ⟨⟨calculateCart_calcConsistent _, hcent⟩,
              cacheWF_set hcache (calculateCart_calcConsistent _) hcent⟩
        | none =>
          rw [saveCart_eval _ _ hkey]
          intro h
          simp only [Except.ok.injEq] at h
          subst h
          have hcent : ∀ i ∈ cart.items ++
              [{ product_id := product.id, quantity := q,
                 price := product.price, name := product.name,
                 imageUrl := product.imageUrl }], centPrice i.price := by
            intro i hi
            rcases List.mem_append.1 hi with h | h
            · exact hcwf.2 i h
            · simp only [List.mem_singleton] at h
              subst h
              exact hpcent
          exact ⟨⟨calculateCart_calcConsistent _, hcent⟩,
            cacheWF_set hcache (calculateCart_calcConsistent _) hcent⟩

/-- Any successful `updateCartItem` returns a recomputed, whole-cent
cart and keeps the cache well-formed. -/
theorem updateCartItem_wf {pid q : Int} {userId : Option Int}
    {sessionId : Option String} {products : List Product} {cache : Cache}
    (hcache : cacheWF cache) (hprod : ∀ p ∈ products, centPrice p.price) :
    ∀ c, (updateCartItem pid q userId sessionId products cache).1 =
        Except.ok c →
      (cartCalcConsistent c ∧ cartCentPrices c) ∧
        cacheWF (updateCartItem pid q userId sessionId products cache).2 := by
  intro c
  unfold updateCartItem
  cases hget : getCart userId sessionId cache with
  | error e => intro h; simp at h
  | ok cart =>
    dsimp only
    obtain ⟨key, hkey, hcart⟩ := getCart_ok hget
    have hcwf := cacheWF_get hcache key
    rw [← hcart] at hcwf
    cases hline : cart.items.find? (fun item => item.product_id = pid) with
    | none => intro h; simp at h
    | some existing =>
      dsimp only
      by_cases hq : q = 0
      · rw [if_pos hq]
        rw [saveCart_eval _ _ hkey]
        intro h
        simp only [Except.ok.injEq] at h
        subst h
        have hcent : ∀ i ∈ removeFirst cart.items pid, centPrice i.price :=
          fun i hi => hcwf.2 i (removeFirst_subset cart.items pid i hi)
        exact ⟨⟨calculateCart_calcConsistent _, hcent⟩,
          cacheWF_set hcache (calculateCart_calcConsistent _) hcent⟩
      · rw [if_neg hq]
        cases hfind : products.find? (fun p => p.id = pid) with
        | none => intro h; simp at h
        | some product =>
          dsimp only
          by_cases hstock : product.stock_quantity < q
          · rw [if_pos hstock]; intro h; simp at h
          · rw [if_neg hstock]
            rw [saveCart_eval _ _ hkey]
            intro h
            simp only [Except.ok.injEq] at h
            subst h
            have hcent : ∀ i ∈ setQuantityFirst cart.items pid q,
                centPrice i.price :=
              centPrices_of_map_price_eq
                (setQuantityFirst_map_price cart.items pid _) hcwf.2
            exact ⟨⟨calculateCart_calcConsistent _, hcent⟩,
              cacheWF_set hcache (calculateCart_calcConsistent _) hcent⟩

/-- Any successful `removeFromCart` returns a recomputed, whole-cent
cart and keeps the cache well-formed. -/
theorem removeFromCart_wf {pid : Int} {userId : Option Int}
    {sessionId : Option String} {cache : Cache} (hcache : cacheWF cache) :
    ∀ c, (removeFromCart pid userId sessionId cache).1 = Except.ok c →
      (cartCalcConsistent c ∧ cartCentPrices c) ∧
        cacheWF (removeFromCart pid userId sessionId cache).2 := by
  intro c
  unfold removeFromCart
  cases hget : getCart userId sessionId cache with
  | error e => intro h; simp at h
  | ok cart =>
    dsimp only
    obtain ⟨key, hkey, hcart⟩ := getCart_ok hget
    have hcwf := cacheWF_get hcache key
    rw [← hcart] at hcwf
    cases hline : cart.items.find? (fun item => item.product_id = pid) with
    | none => intro h; simp at h
    | some existing =>
      dsimp only
      rw [saveCart_eval _ _ hkey]
      intro h
      simp only [Except.ok.injEq] at h
      subst h
      have hcent : ∀ i ∈ removeFirst cart.items pid, centPrice i.price :=
        fun i hi => hcwf.2 i (removeFirst_subset cart.items pid i hi)
      exact ⟨⟨calculateCart_calcConsistent _, hcent⟩,
        cacheWF_set hcache (calculateCart_calcConsistent _) hcent⟩

/-- Any successful `mergeCart` returns a well-formed cart and keeps the
cache well-formed. -/
theorem mergeCart_wf {uid : Int} {sid : String} {cache : Cache}
    (hcache : cacheWF cache) :
    ∀ c, (mergeCart uid sid cache).1 = Except.ok c →
      (cartCalcConsistent c ∧ cartCentPrices c) ∧
        cacheWF (mergeCart uid sid cache).2 := by
  intro c
  unfold mergeCart
  cases hgets : getCart none (some sid) cache with
  | error e => intro h; simp at h
  | ok sessionCart =>
    dsimp only
    obtain ⟨skey, hskey, hscart⟩ := getCart_ok hgets
    have hswf := cacheWF_get hcache skey
    rw [← hscart] at hswf
    cases hgetu : getCart (some uid) none cache with
    | error e => intro h; simp at h
    | ok userCart =>
      dsimp only
      obtain ⟨ukey, hukey, hucart⟩ := getCart_ok hgetu
      have huwf := cacheWF_get hcache ukey
      rw [← hucart] at huwf
      by_cases hempty : sessionCart.items.length = 0
      · rw [if_pos hempty]
        intro h
        simp only [Except.ok.injEq] at h
        subst h
        exact ⟨huwf, hcache⟩
      · rw [if_neg hempty]
        rw [saveCart_eval _ _ hukey]
        unfold clearCart
        rw [hskey]
        intro h
        simp only [Except.ok.injEq] at h
        subst h
        have hcent : ∀ i ∈ sessionCart.items.foldl mergeItem userCart.items,
            centPrice i.price :=
          foldl_mergeItem_centPrices huwf.2 hswf.2
        refine ⟨⟨calculateCart_calcConsistent _, hcent⟩, ?_⟩
        exact cacheWF_del
          (cacheWF_set hcache (calculateCart_calcConsistent _) hcent)

/-! ## Sample data for witnesses and counterexamples -/

theorem centPrice_int (n : Int) : centPrice (n : Rat) :=
  ⟨n * 100, by push_cast; ring⟩

/-- A sample product used by the concrete witnesses. -/
def sampleProduct : Product :=
  { id := 1, name := "Widget", price := 50, stock_quantity := 10,
    imageUrl := none }

/-- A sample catalog. -/
def sampleProducts : List Product := [sampleProduct]

/-- A sample cart line for product 1. -/
def sampleItem : CartItem :=
  { product_id := 1, quantity := 1, price := 50, name := "Widget",
    imageUrl := none }

/-- A sample cart holding one unit of product 1. -/
def sampleCart : Cart := calculateCart [sampleItem]

/-- A sample cache with user 7's cart holding one unit of product 1. -/
def sampleCache : Cache := [("cart:user:7", sampleCart)]

theorem sampleCache_wf : cacheWF sampleCache := by
  intro kv hkv
  simp only [sampleCache, List.mem_singleton] at hkv
  subst hkv
  refine ⟨⟨rfl, rfl⟩, ?_⟩
  intro item hitem
  simp only [sampleCart, calculateCart, List.mem_singleton] at hitem
  subst hitem
  exact ⟨5000, by norm_num [sampleItem]⟩

theorem sampleProducts_cent : ∀ p ∈ sampleProducts, centPrice p.price := by
  intro p hp
  simp only [sampleProducts, List.mem_singleton] at hp
  subst hp
  exact ⟨5000, by norm_num [sampleProduct]⟩

/-! ## Claim C3 -/

/-- C3: for every cart returned by any cart operation (get, addItem,
updateItem, removeItem, merge) on a well-formed cache (all stored carts
recomputed by `calculateCart`, prices in whole cents), `total` equals
the sum of `price * quantity` over its lines and `itemCount` equals the
sum of the quantities — in particular for plain reads; and every
operation keeps the cache well-formed. -/
theorem claim_C3_cart_invariants
    (userId : Option Int) (sessionId : Option String)
    (products : List Product) (cache : Cache)
    (hcache : cacheWF cache)
    (hprod : ∀ p ∈ products, centPrice p.price) :
    (∀ c, getCart userId sessionId cache = Except.ok c → cartInv c)
    ∧ (∀ pid q c,
        (addToCart pid q userId sessionId products cache).1 = Except.ok c →
          cartInv c ∧
            cacheWF (addToCart pid q userId sessionId products cache).2)
    ∧ (∀ pid q c,
        (updateCartItem pid q userId sessionId products cache).1 =
            Except.ok c →
          cartInv c ∧
            cacheWF (updateCartItem pid q userId sessionId products cache).2)
    ∧ (∀ pid c,
        (removeFromCart pid userId sessionId cache).1 = Except.ok c →
          cartInv c ∧ cacheWF (removeFromCart pid userId sessionId cache).2)
    ∧ (∀ uid sid c,
        (mergeCart uid sid cache).1 = Except.ok c →
          cartInv c ∧ cacheWF (mergeCart uid sid cache).2) := by
  refine ⟨?_, ?_, ?_, ?_, ?_⟩
  · intro c hc
    obtain ⟨key, hkey, hcart⟩ := getCart_ok hc
    have h := cacheWF_get hcache key
    rw [← hcart] at h
    exact cartInv_of_wf h.1 h.2
  · intro pid q c h
    obtain ⟨hwf, hcw⟩ := addToCart_wf hcache hprod c h
    exact ⟨cartInv_of_wf hwf.1 hwf.2, hcw⟩
  · intro pid q c h
    obtain ⟨hwf, hcw⟩ := updateCartItem_wf hcache hprod c h
    exact ⟨cartInv_of_wf hwf.1 hwf.2, hcw⟩
  · intro pid c h
    obtain ⟨hwf, hcw⟩ := removeFromCart_wf hcache c h
    exact ⟨cartInv_of_wf hwf.1 hwf.2, hcw⟩
  · intro uid sid c h
    obtain ⟨hwf, hcw⟩ := mergeCart_wf hcache c h
    exact ⟨cartInv_of_wf hwf.1 hwf.2, hcw⟩

/-- Witness for C3 at a concrete cache: the cart read back for user 7
satisfies the invariant. -/
theorem claim_C3_cart_invariants_witness : cartInv sampleCart :=
  (claim_C3_cart_invariants (some 7) none sampleProducts sampleCache
    sampleCache_wf sampleProducts_cent).1 sampleCart rfl

/-! ## Claim C8 -/

/-- C8: `updateCartItem` with quantity 0 is the same operation as
`removeFromCart` — identical result cart and identical cache — and when
the product has no line in the cart both fail with the not-in-cart
`NotFoundError` leaving the cache untouched. -/
theorem claim_C8_update_zero_eq_remove (productId : Int)
    (userId : Option Int) (sessionId : Option String)
    (products : List Product) (cache : Cache) :
    updateCartItem productId 0 userId sessionId products cache =
      removeFromCart productId userId sessionId cache
    ∧ ∀ cart, getCart userId sessionId cache = Except.ok cart →
        cart.items.find? (fun item => item.product_id = productId) = none →
        updateCartItem productId 0 userId sessionId products cache =
          (Except.error (CartError.notInCart productId), cache) := by
  constructor
  · unfold updateCartItem removeFromCart
    cases getCart userId sessionId cache with
    | error e => rfl
    | ok cart =>
      dsimp only
      cases cart.items.find? (fun item => item.product_id = productId) with
      | none => rfl
      | some it => rw [if_pos rfl]
  · intro cart hget hnone
    unfold updateCartItem
    rw [hget]
    dsimp only
    rw [hnone]

/-- Witness for C8: product 2 is not in user 7's sample cart, so the
zero-quantity update fails with the not-in-cart error. -/
theorem claim_C8_witness :
    updateCartItem 2 0 (some 7) none sampleProducts sampleCache =
      (Except.error (CartError.notInCart 2), sampleCache) :=
  (claim_C8_update_zero_eq_remove 2 (some 7) none sampleProducts
    sampleCache).2 sampleCart rfl (by decide)

/-! ## Claim C10 -/

/-- C10: a supplied `userId` equal to 0 is treated as absent by every
cart operation: with a session id present the session key is used, and
with no session id the operation fails with the missing-identity error
even though a user id was passed. -/
theorem claim_C10_zero_userId :
    (∀ sessionId, getCartKey (some 0) sessionId = getCartKey none sessionId)
    ∧ getCartKey (some 0) none = Except.error CartError.identityRequired
    ∧ (∀ s : String, s ≠ "" →
        getCartKey (some 0) (some s) = Except.ok ("cart:session:" ++ s))
    ∧ (∀ sessionId cache,
        getCart (some 0) sessionId cache = getCart none sessionId cache)
    ∧ (∀ cart sessionId cache,
        saveCart cart (some 0) sessionId cache =
          saveCart cart none sessionId cache)
    ∧ (∀ sessionId cache,
        clearCart (some 0) sessionId cache = clearCart none sessionId cache)
    ∧ (∀ cache, getCart (some 0) none cache =
        Except.error CartError.identityRequired)
    ∧ (∀ pid q sessionId products cache,
        addToCart pid q (some 0) sessionId products cache =
          addToCart pid q none sessionId products cache)
    ∧ (∀ pid q sessionId products cache,
        updateCartItem pid q (some 0) sessionId products cache =
          updateCartItem pid q none sessionId products cache)
    ∧ (∀ pid sessionId cache,
        removeFromCart pid (some 0) sessionId cache =
          removeFromCart pid none sessionId cache) := by
  have hkey : ∀ sessionId,
      getCartKey (some 0) sessionId = getCartKey none sessionId := by
    intro sessionId
    rfl
  refine ⟨hkey, rfl, ?_, ?_, ?_, ?_, ?_, ?_, ?_, ?_⟩
  · intro s hs
    simp [getCartKey, hs]
  · intro sessionId cache
    unfold getCart
    rw [hkey]
  · intro cart sessionId cache
    unfold saveCart
    rw [hkey]
  · intro sessionId cache
    unfold clearCart
    rw [hkey]
  · intro cache
    rfl
  · intro pid q sessionId products cache
    have hget2 : ∀ cc : Cache, getCart (some 0) sessionId cc =
        getCart none sessionId cc :=
      fun cc => by unfold getCart; rw [hkey]
    have hsave2 : ∀ (c : Cart) (cc : Cache),
        saveCart c (some 0) sessionId cc = saveCart c none sessionId cc :=
      fun c cc => by unfold saveCart; rw [hkey]
    unfold addToCart
    simp only [hget2, hsave2]
  · intro pid q sessionId products cache
    have hget2 : ∀ cc : Cache, getCart (some 0) sessionId cc =
        getCart none sessionId cc :=
      fun cc => by unfold getCart; rw [hkey]
    have hsave2 : ∀ (c : Cart) (cc : Cache),
        saveCart c (some 0) sessionId cc = saveCart c none sessionId cc :=
      fun c cc => by unfold saveCart; rw [hkey]
    unfold updateCartItem
    simp only [hget2, hsave2]
  · intro pid sessionId cache
    have hget2 : ∀ cc : Cache, getCart (some 0) sessionId cc =
        getCart none sessionId cc :=
      fun cc => by unfold getCart; rw [hkey]
    have hsave2 : ∀ (c : Cart) (cc : Cache),
        saveCart c (some 0) sessionId cc = saveCart c none sessionId cc :=
      fun c cc => by unfold saveCart; rw [hkey]
    unfold removeFromCart
    simp only [hget2, hsave2]

/-- Witness for C10: with `userId = 0` and session id `"abc"` the
session key is produced. -/
theorem claim_C10_zero_userId_witness :
    getCartKey (some 0) (some "abc") = Except.ok "cart:session:abc" :=
  claim_C10_zero_userId.2.2.1 "abc" (by decide)

/-! ## Claim C4 -/

/-- C4: when the product already has a line in the cart, `addToCart`
succeeds iff the cumulative quantity (existing + added) does not exceed
the product's current stock; every failure is one of the two
insufficient-stock `BadRequestError`s and performs no cache write. -/
theorem claim_C4_cumulative_stock_check
    (pid added : Int) (userId : Option Int) (sessionId : Option String)
    (products : List Product) (cache : Cache) (product : Product)
    (hfind : products.find? (fun p => p.id = pid) = some product)
    (key : String) (hkey : getCartKey userId sessionId = Except.ok key)
    (existing : CartItem)
    (hline : ((cacheGet cache key).getD emptyCart).items.find?
        (fun item => item.product_id = pid) = some existing)
    (hq0 : 0 ≤ existing.quantity) :
    ((∃ c, (addToCart pid added userId sessionId products cache).1 =
        Except.ok c) ↔
      ¬ product.stock_quantity < existing.quantity + added)
    ∧ (∀ e, (addToCart pid added userId sessionId products cache).1 =
        Except.error e →
        e.isInsufficientStock = true ∧
          (addToCart pid added userId sessionId products cache).2 = cache) := by
  unfold addToCart
  rw [hfind]
  dsimp only
  by_cases hd : product.stock_quantity < added
  · rw [if_pos hd]
    constructor
    · constructor
      · intro ⟨c, hc⟩; simp at hc
      · intro hns
        exact absurd (lt_of_lt_of_le hd (by omega)) hns
    · intro e he
      simp only [Except.error.injEq] at he
      subst he
      exact ⟨rfl, rfl⟩
  · rw [if_neg hd]
    rw [getCart_eval cache hkey]
    dsimp only
    rw [hline]
    dsimp only
    by_cases hcum : product.stock_quantity < existing.quantity + added
    · rw [if_pos hcum]
      constructor
      · constructor
        · intro ⟨c, hc⟩; simp at hc
        · intro hns; exact absurd hcum hns
      · intro e he
        simp only [Except.error.injEq] at he
        subst he
        exact ⟨rfl, rfl⟩
    · rw [if_neg hcum]
      rw [saveCart_eval _ _ hkey]
      constructor
      · constructor
        · intro _; exact hcum
        · intro _; exact ⟨_, rfl⟩
      · intro e he; simp at he

/-- Witness for C4: adding one more unit of product 1 (stock 10) to a
cart already holding one unit succeeds. -/
theorem claim_C4_witness :
    ∃ c, (addToCart 1 1 (some 7) none sampleProducts sampleCache).1 =
      Except.ok c :=
  (claim_C4_cumulative_stock_check 1 1 (some 7) none sampleProducts
      sampleCache sampleProduct rfl "cart:user:7" rfl sampleItem rfl
      (by decide)).1.mpr (by decide)

/-! ## Claim C9 -/

theorem removeFirst_append_not_mem (l : List CartItem) (x : CartItem)
    (pid : Int) (h : ∀ item ∈ l, ¬ item.product_id = pid)
    (hx : x.product_id = pid) : removeFirst (l ++ [x]) pid = l := by
  induction l with
  | nil => simp [removeFirst, hx]
  | cons y l ih =>
    have hy : ¬ y.product_id = pid := h y (by simp)
    have htail := ih (fun item hi => h item (by simp [hi]))
    simp only [List.cons_append, removeFirst, if_neg hy]
    exact congrArg (fun t => y :: t) htail

theorem sumTotal_single (x : CartItem) :
    sumTotal [x] = x.price * (x.quantity : Rat) := by
  simp [sumTotal]

/-- Counterexample to C9 as stated: user 7's cart already holds one
unit of product 1 at price 50 (total 50); `addToCart` of one more unit
merges into that line, and the following `removeFromCart` deletes the
whole merged line, leaving total 0 instead of the prior 50. -/
theorem claim_C9_counterexample :
    (((cacheGet sampleCache "cart:user:7").getD emptyCart).items.find?
        (fun item => item.product_id = 1)).isSome = true
    ∧ (addToCart 1 1 (some 7) none sampleProducts sampleCache).1 =
        Except.ok (calculateCart [{ sampleItem with quantity := 2 }])
    ∧ (removeFromCart 1 (some 7) none
          (addToCart 1 1 (some 7) none sampleProducts sampleCache).2).1 =
        Except.ok (calculateCart [])
    ∧ (calculateCart []).total ≠ sampleCart.total := by
  refine ⟨rfl, rfl, rfl, ?_⟩
  have h1 : (calculateCart []).total = 0 := by
    show round2 (sumTotal []) = 0
    rw [show sumTotal [] = 0 from rfl, round2_cent centPrice_zero]
  have h2 : sampleCart.total = 50 := by
    show round2 (sumTotal [sampleItem]) = 50
    have hs : sumTotal [sampleItem] = 50 := by
      rw [sumTotal_single]
      norm_num [sampleItem]
    rw [hs, round2_cent ⟨5000, by norm_num⟩]
  rw [h1, h2]
  norm_num

/-- C9 amended: `addToCart` then `removeFromCart` of the same product
restores the prior total and item count when the product was NOT
already a line in the cart (when it was, the remove deletes the whole
merged line, dropping the prior quantity as well — see the
counterexample). -/
theorem claim_C9_amended_roundtrip
    (pid added : Int) (userId : Option Int) (sessionId : Option String)
    (products : List Product) (cache : Cache) (product : Product)
    (key : String) (hkey : getCartKey userId sessionId = Except.ok key)
    (hfind : products.find? (fun p => p.id = pid) = some product)
    (hstock : ¬ product.stock_quantity < added)
    (hnotin : ((cacheGet cache key).getD emptyCart).items.find?
        (fun item => item.product_id = pid) = none)
    (hcons : cartCalcConsistent ((cacheGet cache key).getD emptyCart)) :
    ∃ c1 cache1 c2 cache2,
      addToCart pid added userId sessionId products cache =
        (Except.ok c1, cache1)
      ∧ removeFromCart pid userId sessionId cache1 = (Except.ok c2, cache2)
      ∧ c2.total = ((cacheGet cache key).getD emptyCart).total
      ∧ c2.itemCount = ((cacheGet cache key).getD emptyCart).itemCount := by
  have hpid : product.id = pid := by
    have := List.find?_some hfind
    simpa using this
  set cart := (cacheGet cache key).getD emptyCart with hcart
  set newItem : CartItem :=
    { product_id := product.id, quantity := added, price := product.price,
      name := product.name, imageUrl := product.imageUrl } with hnew
  have hadd : addToCart pid added userId sessionId products cache =
      (Except.ok (calculateCart (cart.items ++ [newItem])),
       cacheSet cache key (calculateCart (cart.items ++ [newItem]))) := by
    unfold addToCart
    rw [hfind]
    dsimp only
    rw [if_neg hstock]
    rw [getCart_eval cache hkey]
    dsimp only
    rw [← hcart, hnotin]
    dsimp only
    rw [saveCart_eval _ _ hkey]
  have hfindnew : (cart.items ++ [newItem]).find?
      (fun item => item.product_id = pid) = some newItem := by
    rw [List.find?_append, hnotin]
    simp [hnew, hpid]
  have hrm : removeFirst (cart.items ++ [newItem]) pid = cart.items :=
    removeFirst_append_not_mem cart.items newItem pid
      (by
        intro item hi
        have := List.find?_eq_none.1 hnotin item hi
        simpa using this)
      (by simp [hnew, hpid])
  have hrem : removeFromCart pid userId sessionId
      (cacheSet cache key (calculateCart (cart.items ++ [newItem]))) =
      (Except.ok (calculateCart (removeFirst (cart.items ++ [newItem]) pid)),
       cacheSet (cacheSet cache key (calculateCart (cart.items ++ [newItem])))
         key (calculateCart (removeFirst (cart.items ++ [newItem]) pid))) := by
    unfold removeFromCart
    rw [getCart_eval _ hkey]
    dsimp only
    rw [cacheGet_set_self]
    dsimp only [Option.getD_some, calculateCart]
    rw [hfindnew]
    dsimp only
    rw [saveCart_eval _ _ hkey]
  refine ⟨calculateCart (cart.items ++ [newItem]), _,
    calculateCart (removeFirst (cart.items ++ [newItem]) pid), _,
    hadd, hrem, ?_, ?_⟩
  · rw [hrm]
    show round2 (sumTotal cart.items) = cart.total
    exact hcons.1.symm
  · rw [hrm]
    exact hcons.2.symm

/-- Witness for the amended C9: product 1 is not in the (empty) session
cart, so add-then-remove restores total 0 and count 0. -/
theorem claim_C9_amended_roundtrip_witness :
    ∃ c1 cache1 c2 cache2,
      addToCart 1 2 none (some "sess") sampleProducts [] =
        (Except.ok c1, cache1)
      ∧ removeFromCart 1 none (some "sess") cache1 = (Except.ok c2, cache2)
      ∧ c2.total = ((cacheGet [] "cart:session:sess").getD emptyCart).total
      ∧ c2.itemCount =
          ((cacheGet [] "cart:session:sess").getD emptyCart).itemCount :=
  claim_C9_amended_roundtrip 1 2 none (some "sess") sampleProducts []
    sampleProduct "cart:session:sess" rfl rfl (by decide) rfl
    ⟨(round2_cent centPrice_zero).symm, rfl⟩

/-! ## Order-service helper lemmas -/

/-- The batch-fetch row count equals the request count iff the request
ids are duplicate-free and all exist (the crux of the `NotFoundError`
length check of `createOrder`). -/
theorem filter_contains_length_eq_iff {dbIds L : List Int}
    (hdb : dbIds.Nodup) :
    (dbIds.filter (fun a => L.contains a)).length = L.length ↔
      L.Nodup ∧ ∀ a ∈ L, a ∈ dbIds := by
  have hfc : dbIds.filter (fun a => L.contains a) =
      dbIds.filter (fun a => decide (a ∈ L)) :=
    List.filter_congr (by intro a _; simp)
  rw [hfc]
  set F := dbIds.filter (fun a => decide (a ∈ L)) with hF
  have hFnodup : F.Nodup := hdb.filter _
  have hFsub : ∀ a ∈ F, a ∈ L := by
    intro a ha
    have := (List.mem_filter.1 ha).2
    simpa using this
  have hFdb : ∀ a ∈ F, a ∈ dbIds := fun a ha => (List.mem_filter.1 ha).1
  have hcard1 : F.length = F.toFinset.card :=
    (List.toFinset_card_of_nodup hFnodup).symm
  have hsub : F.toFinset ⊆ L.toFinset := by
    intro a ha
    exact List.mem_toFinset.2 (hFsub a (List.mem_toFinset.1 ha))
  have hcard2 : F.toFinset.card ≤ L.toFinset.card := Finset.card_le_card hsub
  have hcard3 : L.toFinset.card ≤ L.length := L.toFinset_card_le
  constructor
  · intro h
    have hLcard : L.toFinset.card = L.length := by omega
    have hLnodup : L.Nodup := by
      have hd : L.dedup.length = L.length := by
        rw [← List.card_toFinset]; exact hLcard
      exact List.dedup_eq_self.1 (L.dedup_sublist.eq_of_length hd)
    have hFeq : F.toFinset = L.toFinset :=
      Finset.eq_of_subset_of_card_le hsub (by omega)
    refine ⟨hLnodup, ?_⟩
    intro a ha
    have : a ∈ F.toFinset := hFeq ▸ List.mem_toFinset.2 ha
    exact hFdb a (List.mem_toFinset.1 this)
  · intro ⟨hLnodup, hex⟩
    have hFeq : F.toFinset = L.toFinset := by
      refine Finset.Subset.antisymm hsub ?_
      intro a ha
      have haL : a ∈ L := List.mem_toFinset.1 ha
      refine List.mem_toFinset.2 (List.mem_filter.2 ⟨hex a haL, by simpa⟩)
    rw [hcard1, hFeq, List.toFinset_card_of_nodup hLnodup]

/-- The ids of the filtered product rows are the filtered ids. -/
theorem map_id_filter_contains (products : List Product) (L : List Int) :
    (products.filter (fun p => L.contains p.id)).map (fun p => p.id) =
      (products.map (fun p => p.id)).filter (fun a => L.contains a) := by
  induction products with
  | nil => rfl
  | cons p ps ih =>
    simp only [List.elem_eq_mem] at ih ⊢
    by_cases h : p.id ∈ L <;>
      simp [List.filter_cons, h, ih]

/-- `find?` commutes with a filter whose predicate is implied by the
search predicate. -/
theorem find?_filter_of_imp {α : Type} (l : List α) (p q : α → Bool)
    (himp : ∀ a, p a = true → q a = true) :
    (l.filter q).find? p = l.find? p := by
  induction l with
  | nil => rfl
  | cons x l ih =>
    by_cases hp : p x = true
    · rw [List.filter_cons_of_pos (himp x hp), List.find?_cons_of_pos _ hp,
        List.find?_cons_of_pos _ hp]
    · by_cases hq : q x = true
      · rw [List.filter_cons_of_pos hq, List.find?_cons_of_neg _ (by simp [hp]),
          List.find?_cons_of_neg _ (by simp [hp]), ih]
      · rw [List.filter_cons_of_neg (by simp [hq]),
          List.find?_cons_of_neg _ (by simp [hp]), ih]

/-- The price captured by `createOrder` for a product id: the one
fetched fresh from the relational store. -/
def dbPriceOf (db : Db) (pid : Int) : Rat :=
  ((db.products.find? (fun p => p.id = pid)).map (fun p => p.price)).getD 0

/-- Characterization of a successful `buildOrderItemsData` pass: the
data pairs each requested item with the freshly fetched price, and
every item's quantity fits in the found product's stock. -/
theorem buildOrderItemsData_ok {products : List Product} :
    ∀ {items : List OrderItemInput} {data : List OrderItemData},
    buildOrderItemsData products items = Except.ok data →
    data = items.map (fun item =>
      { product_id := item.product_id, quantity := item.quantity,
        price := ((products.find? (fun p => p.id = item.product_id)).map
          (fun p => p.price)).getD 0 })
    ∧ ∀ item ∈ items, ∃ p,
        products.find? (fun p => p.id = item.product_id) = some p ∧
          ¬ p.stock_quantity < item.quantity := by
  intro items
  induction items with
  | nil =>
    intro data h
    simp only [buildOrderItemsData, Except.ok.injEq] at h
    subst h
    exact ⟨rfl, by intro item hi; simp at hi⟩
  | cons item rest ih =>
    intro data h
    unfold buildOrderItemsData at h
    cases hf : products.find? (fun p => p.id = item.product_id) with
    | none => rw [hf] at h; simp at h
    | some p =>
      rw [hf] at h
      dsimp only at h
      by_cases hs : p.stock_quantity < item.quantity
      · rw [if_pos hs] at h; simp at h
      · rw [if_neg hs] at h
        cases hr : buildOrderItemsData products rest with
        | error e => rw [hr] at h; simp [Except.map] at h
        | ok restData =>
          rw [hr] at h
          simp only [Except.map, Except.ok.injEq] at h
          obtain ⟨hd, hall⟩ := ih hr
          subst h
          constructor
          · rw [List.map_cons, ← hd, hf]
            simp
          · intro i hi
            rcases List.mem_cons.1 hi with rfl | hi
            · exact ⟨p, hf, hs⟩
            · exact hall i hi

/-- `buildOrderItemsData` never produces a `productsNotFound` error. -/
theorem buildOrderItemsData_error_shape {products : List Product} :
    ∀ {items : List OrderItemInput} {e : OrderError},
    buildOrderItemsData products items = Except.error e →
      e = OrderError.assertionFailed ∨
        ∃ n a r, e = OrderError.insufficientStock n a r := by
  intro items
  induction items with
  | nil => intro e h; simp [buildOrderItemsData] at h
  | cons item rest ih =>
    intro e h
    unfold buildOrderItemsData at h
    cases hf : products.find? (fun p => p.id = item.product_id) with
    | none =>
      rw [hf] at h
      simp only [Except.error.injEq] at h
      exact Or.inl h.symm
    | some p =>
      rw [hf] at h
      dsimp only at h
      by_cases hs : p.stock_quantity < item.quantity
      · rw [if_pos hs] at h
        simp only [Except.error.injEq] at h
        exact Or.inr ⟨_, _, _, h.symm⟩
      · rw [if_neg hs] at h
        cases hr : buildOrderItemsData products rest with
        | error e2 =>
          rw [hr] at h
          simp only [Except.map, Except.error.injEq] at h
          exact h ▸ ih hr
        | ok restData => rw [hr] at h; simp [Except.map] at h

/-- When every requested product is found but some item's quantity
exceeds its product's stock, `buildOrderItemsData` fails with the
insufficient-stock error of a violating item. -/
theorem buildOrderItemsData_insufficient {products : List Product} :
    ∀ {items : List OrderItemInput},
    (∀ item ∈ items,
      (products.find? (fun p => p.id = item.product_id)).isSome = true) →
    (∃ item ∈ items, ∃ p,
      products.find? (fun p => p.id = item.product_id) = some p ∧
        p.stock_quantity < item.quantity) →
    ∃ item ∈ items, ∃ p,
      products.find? (fun p => p.id = item.product_id) = some p ∧
        p.stock_quantity < item.quantity ∧
        buildOrderItemsData products items = Except.error
          (OrderError.insufficientStock p.name p.stock_quantity
            item.quantity) := by
  intro items
  induction items with
  | nil => intro _ hbad; simp at hbad
  | cons item rest ih =>
    intro hfindall hbad
    have hhead := hfindall item (by simp)
    cases hf : products.find? (fun p => p.id = item.product_id) with
    | none => rw [hf] at hhead; simp at hhead
    | some p =>
      by_cases hs : p.stock_quantity < item.quantity
      · refine ⟨item, by simp, p, hf, hs, ?_⟩
        unfold buildOrderItemsData
        rw [hf]
        dsimp only
        rw [if_pos hs]
      · have hbadrest : ∃ i ∈ rest, ∃ q,
            products.find? (fun p => p.id = i.product_id) = some q ∧
              q.stock_quantity < i.quantity := by
          obtain ⟨i, hi, q, hfq, hq⟩ := hbad
          rcases List.mem_cons.1 hi with rfl | hi
          · rw [hf] at hfq
            simp only [Option.some.injEq] at hfq
            exact absurd (hfq ▸ hq) hs
          · exact ⟨i, hi, q, hfq, hq⟩
        obtain ⟨i, hi, q, hfq, hq, herr⟩ :=
          ih (fun j hj => hfindall j (by simp [hj])) hbadrest
        refine ⟨i, by simp [hi], q, hfq, hq, ?_⟩
        unfold buildOrderItemsData
        rw [hf]
        dsimp only
        rw [if_neg hs, herr]
        rfl

/-- Stock of a product id in a product list. -/
def stockOfIn (ps : List Product) (pid : Int) : Option Int :=
  (ps.find? (fun p => p.id = pid)).map (fun p => p.stock_quantity)

theorem stockOf_eq_stockOfIn (db : Db) (pid : Int) :
    stockOf db pid = stockOfIn db.products pid := rfl

/-- Total quantity the order-item data requests of a product id. -/
def sumQtyData (data : List OrderItemData) (pid : Int) : Int :=
  ((data.filter (fun d => d.product_id = pid)).map (fun d => d.quantity)).sum

theorem find?_updateStock (ps : List Product) (pid' q pid : Int) :
    (updateStock ps pid' q).find? (fun p => p.id = pid) =
      (ps.find? (fun p => p.id = pid)).map (fun p =>
        if p.id = pid' then { p with stock_quantity := p.stock_quantity - q }
        else p) := by
  induction ps with
  | nil => rfl
  | cons x ps ih =>
    have hid : (if x.id = pid' then
        ({ x with stock_quantity := x.stock_quantity - q } : Product)
        else x).id = x.id := by
      split <;> rfl
    by_cases h : x.id = pid
    · simp only [updateStock, List.map_cons]
      rw [List.find?_cons_of_pos _ (by rw [hid]; simp [h]),
        List.find?_cons_of_pos _ (by simp [h]), Option.map_some']
    · simp only [updateStock, List.map_cons]
      rw [List.find?_cons_of_neg _ (by rw [hid]; simp [h]),
        List.find?_cons_of_neg _ (by simp [h])]
      simpa only [updateStock] using ih

theorem stockOfIn_updateStock (ps : List Product) (pid' q pid : Int) :
    stockOfIn (updateStock ps pid' q) pid =
      if pid' = pid then (stockOfIn ps pid).map (fun s => s - q)
      else stockOfIn ps pid := by
  unfold stockOfIn
  rw [find?_updateStock]
  cases hf : ps.find? (fun p => p.id = pid) with
  | none => by_cases h : pid' = pid <;> simp [h]
  | some p =>
    have hp : p.id = pid := by simpa using List.find?_some hf
    by_cases h : pid' = pid
    · have hpp : p.id = pid' := hp.trans h.symm
      simp [h, hpp]
    · have hpp : ¬ p.id = pid' := fun e => h (e.symm.trans hp)
      simp [h, hpp]

theorem stockOfIn_foldl_update (data : List OrderItemData) :
    ∀ (ps : List Product) (pid : Int),
      stockOfIn (data.foldl
        (fun ps d => updateStock ps d.product_id d.quantity) ps) pid =
        (stockOfIn ps pid).map (fun s => s - sumQtyData data pid) := by
  induction data with
  | nil =>
    intro ps pid
    simp only [List.foldl_nil, sumQtyData, List.filter_nil, List.map_nil,
      List.sum_nil]
    cases stockOfIn ps pid <;> simp
  | cons d data ih =>
    intro ps pid
    rw [List.foldl_cons, ih, stockOfIn_updateStock]
    by_cases h : d.product_id = pid
    · rw [if_pos h]
      cases stockOfIn ps pid <;>
        simp [sumQtyData, List.filter_cons, h] <;> omega
    · rw [if_neg h]
      cases stockOfIn ps pid <;> simp [sumQtyData, List.filter_cons, h]

theorem find?_updateCustomerStats (customers : List Customer) (cid : Int)
    (total : Rat) (now : Int) :
    (updateCustomerStats customers cid total now).find?
        (fun c => c.id = cid) =
      (customers.find? (fun c => c.id = cid)).map (fun c =>
        { c with total_orders := c.total_orders + 1,
                 total_spent := c.total_spent + total,
                 last_purchase_date := some now }) := by
  induction customers with
  | nil => rfl
  | cons x cs ih =>
    have hid : (if x.id = cid then
        ({ x with total_orders := x.total_orders + 1,
                  total_spent := x.total_spent + total,
                  last_purchase_date := some now } : Customer)
        else x).id = x.id := by
      split <;> rfl
    by_cases h : x.id = cid
    · simp only [updateCustomerStats, List.map_cons]
      rw [List.find?_cons_of_pos _ (by rw [hid]; simp [h]),
        List.find?_cons_of_pos _ (by simp [h]), Option.map_some', if_pos h]
    · simp only [updateCustomerStats, List.map_cons]
      rw [List.find?_cons_of_neg _ (by rw [hid]; simp [h]),
        List.find?_cons_of_neg _ (by simp [h])]
      simpa only [updateCustomerStats] using ih

theorem mkOrderItemRows_map (orderId : Int) (data : List OrderItemData) :
    ∀ firstId : Int,
      (mkOrderItemRows orderId firstId data).map
        (fun r => (r.product_id, r.quantity, r.price)) =
        data.map (fun d => (d.product_id, d.quantity, d.price)) := by
  induction data with
  | nil => intro firstId; rfl
  | cons d data ih => intro firstId; simp [mkOrderItemRows, ih]

theorem filter_pid_eq_single {items : List OrderItemInput}
    (hnd : (items.map (fun i => i.product_id)).Nodup) :
    ∀ {item}, item ∈ items →
      items.filter (fun i => i.product_id = item.product_id) = [item] := by
  induction items with
  | nil => intro item h; simp at h
  | cons j rest ih =>
    intro item hmem
    have hnd2 : (∀ x ∈ rest, ¬ x.product_id = j.product_id) ∧
        (rest.map (fun i => i.product_id)).Nodup := by
      simpa using hnd
    rcases List.mem_cons.1 hmem with rfl | hmem
    · rw [List.filter_cons_of_pos (by simp)]
      have hnil : rest.filter (fun i => i.product_id = item.product_id) = [] := by
        rw [List.filter_eq_nil_iff]
        intro a ha
        simp only [decide_eq_true_eq]
        exact hnd2.1 a ha
      rw [hnil]
    · have hji : ¬ j.product_id = item.product_id :=
        fun he => hnd2.1 item hmem he.symm
      rw [List.filter_cons_of_neg (by simp [hji])]
      exact ih hnd2.2 hmem

theorem sumQtyData_map (items : List OrderItemInput)
    (g : OrderItemInput → OrderItemData)
    (hpid : ∀ i, (g i).product_id = i.product_id)
    (hqty : ∀ i, (g i).quantity = i.quantity) (pid : Int) :
    sumQtyData (items.map g) pid =
      ((items.filter (fun i => i.product_id = pid)).map
        (fun i => i.quantity)).sum := by
  induction items with
  | nil => rfl
  | cons i rest ih =>
    simp only [List.map_cons, sumQtyData, List.filter_cons] at ih ⊢
    by_cases h : i.product_id = pid
    · simp [hpid, hqty, h, ih]
    · simp [hpid, h, ih]

/-- Full characterization of a successful `createOrder`: all three
checks passed and the response and new store are the transaction's
literal results. -/
theorem createOrder_ok_elim {cid now : Int} {items : List OrderItemInput}
    {db : Db} {resp : CreateOrderResponse} {db' : Db}
    (h : createOrder cid items now db = (Except.ok resp, db')) :
    ∃ data,
      buildOrderItemsData
        (db.products.filter (fun p =>
          (items.map (fun i => i.product_id)).contains p.id)) items =
        Except.ok data
      ∧ (db.products.filter (fun p =>
          (items.map (fun i => i.product_id)).contains p.id)).length =
          (items.map (fun i => i.product_id)).length
      ∧ db.customers.any (fun c => c.id = cid) = true
      ∧ resp.order.id = db.nextOrderId
      ∧ resp.order.customer_id = cid
      ∧ resp.order.order_date = now
      ∧ resp.order.status = OrderStatus.PENDING
      ∧ resp.order.total = data.foldl
          (fun sum d => sum + d.price * (d.quantity : Rat)) 0
      ∧ resp.items = mkOrderItemRows db.nextOrderId db.nextOrderItemId data
      ∧ db'.products = data.foldl
          (fun ps d => updateStock ps d.product_id d.quantity) db.products
      ∧ db'.customers = updateCustomerStats db.customers cid
          (data.foldl (fun sum d => sum + d.price * (d.quantity : Rat)) 0) now
      ∧ db'.orders = db.orders ++ [resp.order]
      ∧ db'.orderItems = db.orderItems ++ resp.items
      ∧ db'.nextOrderId = db.nextOrderId + 1 := by
  unfold createOrder at h
  by_cases hlen : (db.products.filter (fun p =>
      (items.map (fun i => i.product_id)).contains p.id)).length ≠
      (items.map (fun i => i.product_id)).length
  · rw [if_pos hlen] at h
    simp at h
  · rw [if_neg hlen] at h
    push_neg at hlen
    cases hb : buildOrderItemsData
        (db.products.filter (fun p =>
          (items.map (fun i => i.product_id)).contains p.id)) items with
    | error e => rw [hb] at h; simp at h
    | ok data =>
      rw [hb] at h
      dsimp only at h
      by_cases hcust : db.customers.any (fun c => c.id = cid) = true
      · rw [if_pos hcust] at h
        simp only [Prod.mk.injEq, Except.ok.injEq] at h
        obtain ⟨hresp, hdb2⟩ := h
        subst hresp
        subst hdb2
        exact ⟨data, rfl, hlen, hcust, rfl, rfl, rfl, rfl, rfl, rfl, rfl,
          rfl, rfl, rfl, rfl⟩
      · rw [if_neg hcust] at h
        simp at h

/-- Every failing `createOrder` leaves the relational store unchanged
(nothing is written before the transaction, which is all-or-nothing). -/
theorem createOrder_error_state {cid now : Int}
    {items : List OrderItemInput} {db : Db} {e : OrderError}
    (h : (createOrder cid items now db).1 = Except.error e) :
    (createOrder cid items now db).2 = db := by
  unfold createOrder at h ⊢
  by_cases hlen : (db.products.filter (fun p =>
      (items.map (fun i => i.product_id)).contains p.id)).length ≠
      (items.map (fun i => i.product_id)).length
  · rw [if_pos hlen]
  · rw [if_neg hlen] at h ⊢
    cases hb : buildOrderItemsData
        (db.products.filter (fun p =>
          (items.map (fun i => i.product_id)).contains p.id)) items with
    | error e2 => rfl
    | ok data =>
      rw [hb] at h
      dsimp only at h ⊢
      by_cases hcust : db.customers.any (fun c => c.id = cid) = true
      · rw [if_pos hcust] at h
        simp at h
      · rw [if_neg hcust]

theorem find?_products_filter (db : Db) (L : List Int) (pid : Int)
    (hpid : pid ∈ L) :
    (db.products.filter (fun p => L.contains p.id)).find?
        (fun p => p.id = pid) =
      db.products.find? (fun p => p.id = pid) :=
  find?_filter_of_imp _ _ _ (by
    intro a ha
    simp only [decide_eq_true_eq] at ha
    rw [ha]
    simpa using hpid)

/-! ## Claim C1 -/

/-- C1: every successful `createOrder` returns a PENDING order for the
customer whose total is the sum over the items of the freshly fetched
product price times the requested quantity; one order line per item
carrying that fetched price and the requested quantity; each ordered
product's stock is decremented by its ordered quantity; and the
customer row gains one order, the order total in `total_spent`, and
`last_purchase_date = now`.  (Requires only that the store's product
ids are unique, as for a primary key.) -/
theorem claim_C1_createOrder_success (cid now : Int)
    (items : List OrderItemInput) (db : Db)
    (resp : CreateOrderResponse) (db' : Db)
    (hdb : (db.products.map (fun p => p.id)).Nodup)
    (hok : createOrder cid items now db = (Except.ok resp, db')) :
    resp.order.status = OrderStatus.PENDING
    ∧ resp.order.customer_id = cid
    ∧ resp.order.total = (items.map (fun i =>
        dbPriceOf db i.product_id * (i.quantity : Rat))).sum
    ∧ resp.items.map (fun r => (r.product_id, r.quantity, r.price)) =
        items.map (fun i =>
          (i.product_id, i.quantity, dbPriceOf db i.product_id))
    ∧ (∀ item ∈ items, stockOf db' item.product_id =
        (stockOf db item.product_id).map (fun s => s - item.quantity))
    ∧ customerOf db' cid = (customerOf db cid).map (fun c =>
        { c with total_orders := c.total_orders + 1,
                 total_spent := c.total_spent + resp.order.total,
                 last_purchase_date := some now })
    ∧ (customerOf db cid).isSome = true := by
  obtain ⟨data, hbuild, hlen, hcust, hid, hcid, hdate, hstatus, htotal,
    hitems, hprods, hcusts, horders, horderItems, hnext⟩ :=
    createOrder_ok_elim hok
  have hlen2 : ((db.products.map (fun p => p.id)).filter
      (fun a => (items.map (fun i => i.product_id)).contains a)).length =
      (items.map (fun i => i.product_id)).length := by
    rw [← map_id_filter_contains, List.length_map]
    exact hlen
  obtain ⟨hLnodup, hLmem⟩ := (filter_contains_length_eq_iff hdb).1 hlen2
  have hbridge : ∀ i ∈ items,
      (db.products.filter (fun p =>
        (items.map (fun i => i.product_id)).contains p.id)).find?
        (fun p => p.id = i.product_id) =
      db.products.find? (fun p => p.id = i.product_id) := by
    intro i hi
    exact find?_products_filter db _ i.product_id
      (List.mem_map_of_mem _ hi)
  obtain ⟨hdata, hstocks⟩ := buildOrderItemsData_ok hbuild
  have hdata2 : data = items.map (fun i =>
      { product_id := i.product_id, quantity := i.quantity,
        price := dbPriceOf db i.product_id }) := by
    rw [hdata]
    refine List.map_congr_left ?_
    intro i hi
    have hb2 := hbridge i hi
    rw [hb2]
    rfl
  refine ⟨hstatus, hcid, ?_, ?_, ?_, ?_, ?_⟩
  · rw [htotal,
      foldl_add_eq (fun d : OrderItemData => d.price * (d.quantity : Rat))
        data 0,
      zero_add, hdata2, List.map_map]
    rfl
  · rw [hitems, mkOrderItemRows_map, hdata2, List.map_map]
    rfl
  · intro item hitem
    have hsum : sumQtyData data item.product_id = item.quantity := by
      rw [hdata2, sumQtyData_map _ _ (fun i => rfl) (fun i => rfl),
        filter_pid_eq_single hLnodup hitem]
      simp
    rw [stockOf_eq_stockOfIn, stockOf_eq_stockOfIn, hprods,
      stockOfIn_foldl_update, hsum]
  · simp only [customerOf]
    rw [hcusts, find?_updateCustomerStats, htotal]
  · simp only [customerOf]
    rw [List.find?_isSome]
    obtain ⟨c, hc, hcc⟩ := List.any_eq_true.1 hcust
    exact ⟨c, hc, hcc⟩

/-- A sample relational store: product 1 (price 50, stock 10) and
customer 7 with two prior orders totalling 100. -/
def sampleDb : Db :=
  { products := [sampleProduct]
    customers := [{ id := 7, total_orders := 2, total_spent := 100,
                    last_purchase_date := none }]
    orders := []
    orderItems := []
    nextOrderId := 1
    nextOrderItemId := 1 }

/-- Witness for C1: ordering two units of product 1 for customer 7
produces a PENDING order and decrements product 1's stock by 2. -/
theorem claim_C1_createOrder_success_witness :
    ∃ resp db', createOrder 7 [{ product_id := 1, quantity := 2 }] 99
        sampleDb = (Except.ok resp, db')
      ∧ resp.order.status = OrderStatus.PENDING
      ∧ (∀ item ∈ [({ product_id := 1, quantity := 2 } : OrderItemInput)],
          stockOf db' item.product_id =
            (stockOf sampleDb item.product_id).map
              (fun s => s - item.quantity)) := by
  refine ⟨_, _, rfl, ?_, ?_⟩
  · exact (claim_C1_createOrder_success 7 99
      [{ product_id := 1, quantity := 2 }] sampleDb _ _ (by decide)
      rfl).1
  · exact (claim_C1_createOrder_success 7 99
      [{ product_id := 1, quantity := 2 }] sampleDb _ _ (by decide)
      rfl).2.2.2.2.1

/-! ## Claim C2 -/

/-- C2: when every requested product exists (with duplicate-free ids,
so the batch-count check passes) and some item's quantity exceeds its
product's current stock, `createOrder` fails with the
insufficient-stock `BadRequestError` carrying the product's name, its
available stock and the requested quantity — and the relational store
is returned unchanged (no order, no lines, no stock decrement, no
customer-statistics change). -/
theorem claim_C2_insufficient_stock_rollback (cid now : Int)
    (items : List OrderItemInput) (db : Db)
    (hdb : (db.products.map (fun p => p.id)).Nodup)
    (hnodup : (items.map (fun i => i.product_id)).Nodup)
    (hex : ∀ id ∈ items.map (fun i => i.product_id),
      ∃ p ∈ db.products, p.id = id)
    (hbad : ∃ item ∈ items, ∃ p,
      db.products.find? (fun q => q.id = item.product_id) = some p ∧
        p.stock_quantity < item.quantity) :
    ∃ item ∈ items, ∃ p,
      db.products.find? (fun q => q.id = item.product_id) = some p ∧
        p.stock_quantity < item.quantity ∧
        createOrder cid items now db =
          (Except.error (OrderError.insufficientStock p.name
            p.stock_quantity item.quantity), db) := by
  have hmem : ∀ a ∈ items.map (fun i => i.product_id),
      a ∈ db.products.map (fun p => p.id) := by
    intro a ha
    obtain ⟨p, hp, hpe⟩ := hex a ha
    exact hpe ▸ List.mem_map_of_mem _ hp
  have hlen2 := (filter_contains_length_eq_iff hdb).2 ⟨hnodup, hmem⟩
  have hlen : (db.products.filter (fun p =>
      (items.map (fun i => i.product_id)).contains p.id)).length =
      (items.map (fun i => i.product_id)).length := by
    rw [← List.length_map
      (db.products.filter (fun p =>
        (items.map (fun i => i.product_id)).contains p.id))
      (fun p => p.id), map_id_filter_contains]
    exact hlen2
  have hbridge : ∀ i ∈ items,
      (db.products.filter (fun p =>
        (items.map (fun i => i.product_id)).contains p.id)).find?
        (fun p => p.id = i.product_id) =
      db.products.find? (fun p => p.id = i.product_id) := by
    intro i hi
    exact find?_products_filter db _ i.product_id
      (List.mem_map_of_mem _ hi)
  have hfindall : ∀ item ∈ items,
      ((db.products.filter (fun p =>
        (items.map (fun i => i.product_id)).contains p.id)).find?
        (fun p => p.id = item.product_id)).isSome = true := by
    intro item hitem
    rw [hbridge item hitem, List.find?_isSome]
    obtain ⟨p, hp, hpe⟩ := hex item.product_id
      (List.mem_map_of_mem _ hitem)
    exact ⟨p, hp, by simp [hpe]⟩
  have hbad2 : ∃ item ∈ items, ∃ p,
      (db.products.filter (fun p =>
        (items.map (fun i => i.product_id)).contains p.id)).find?
        (fun p => p.id = item.product_id) = some p ∧
        p.stock_quantity < item.quantity := by
    obtain ⟨item, hitem, p, hfp, hs⟩ := hbad
    exact ⟨item, hitem, p, by rw [hbridge item hitem]; exact hfp, hs⟩
  obtain ⟨item, hitem, p, hfp, hs, herr⟩ :=
    buildOrderItemsData_insufficient hfindall hbad2
  refine ⟨item, hitem, p, ?_, hs, ?_⟩
  · rw [← hbridge item hitem]
    exact hfp
  · unfold createOrder
    rw [if_neg (not_ne_iff.mpr hlen), herr]

/-- Witness for C2: requesting 11 units of product 1 (stock 10) fails
with the insufficient-stock error and leaves the sample store
unchanged. -/
theorem claim_C2_witness :
    ∃ item ∈ [({ product_id := 1, quantity := 11 } : OrderItemInput)], ∃ p,
      sampleDb.products.find? (fun q => q.id = item.product_id) = some p ∧
        p.stock_quantity < item.quantity ∧
        createOrder 7 [{ product_id := 1, quantity := 11 }] 99 sampleDb =
          (Except.error (OrderError.insufficientStock p.name
            p.stock_quantity item.quantity), sampleDb) :=
  claim_C2_insufficient_stock_rollback 7 99
    [{ product_id := 1, quantity := 11 }] sampleDb (by decide) (by decide)
    (by decide)
    ⟨{ product_id := 1, quantity := 11 }, by decide, sampleProduct, rfl,
      by decide⟩

/-! ## Claim C6 -/

/-- C6: `updateOrderStatus` succeeds exactly when the requested status
is in the transition table PENDING → {PROCESSING, CANCELLED},
PROCESSING → {SHIPPED, CANCELLED}, SHIPPED → {DELIVERED}, DELIVERED →
{REFUNDED}, and otherwise fails with the invalid-transition
`BadRequestError` leaving the store unchanged; CANCELLED and REFUNDED
admit no outgoing transition; and every order `createOrder` creates
starts in PENDING. -/
theorem claim_C6_status_machine (orderId : Int) (newStatus : OrderStatus)
    (db : Db) (order : OrderRow)
    (hfound : db.orders.find? (fun o => o.id = orderId) = some order) :
    ((∃ u, (updateOrderStatus orderId newStatus db).1 = Except.ok u) ↔
      newStatus ∈ validTransitions order.status)
    ∧ (newStatus ∉ validTransitions order.status →
        updateOrderStatus orderId newStatus db =
          (Except.error (OrderError.invalidTransition order.status
            newStatus), db))
    ∧ validTransitions OrderStatus.PENDING =
        [OrderStatus.PROCESSING, OrderStatus.CANCELLED]
    ∧ validTransitions OrderStatus.PROCESSING =
        [OrderStatus.SHIPPED, OrderStatus.CANCELLED]
    ∧ validTransitions OrderStatus.SHIPPED = [OrderStatus.DELIVERED]
    ∧ validTransitions OrderStatus.DELIVERED = [OrderStatus.REFUNDED]
    ∧ validTransitions OrderStatus.CANCELLED = []
    ∧ validTransitions OrderStatus.REFUNDED = []
    ∧ (∀ cid (its : List OrderItemInput) now db2 resp db2',
        createOrder cid its now db2 = (Except.ok resp, db2') →
          resp.order.status = OrderStatus.PENDING) := by
  refine ⟨?_, ?_, rfl, rfl, rfl, rfl, rfl, rfl, ?_⟩
  · constructor
    · intro ⟨u, hu⟩
      by_contra hmem
      unfold updateOrderStatus at hu
      rw [hfound] at hu
      dsimp only at hu
      rw [if_neg (by simpa using hmem)] at hu
      simp at hu
    · intro hmem
      have heq : updateOrderStatus orderId newStatus db =
          (Except.ok { order with status := newStatus },
           { db with orders := db.orders.map (fun o =>
               if o.id = orderId then { o with status := newStatus }
               else o) }) := by
        unfold updateOrderStatus
        rw [hfound]
        dsimp only
        rw [if_pos (by simpa using hmem)]
      exact ⟨{ order with status := newStatus }, by rw [heq]⟩
  · intro hmem
    unfold updateOrderStatus
    rw [hfound]
    dsimp only
    rw [if_neg (by simpa using hmem)]
  · intro cid its now db2 resp db2' h
    obtain ⟨data, _, _, _, _, _, _, hstatus, _, _, _, _, _, _, _⟩ :=
      createOrder_ok_elim h
    exact hstatus

/-- A sample PENDING order. -/
def sampleOrder : OrderRow :=
  { id := 1, customer_id := 7, order_date := 0,
    status := OrderStatus.PENDING, total := 100 }

/-- The sample store with one PENDING order. -/
def sampleDbOrders : Db := { sampleDb with orders := [sampleOrder] }

/-- Witness for C6: PENDING → PROCESSING succeeds on the sample
order. -/
theorem claim_C6_witness :
    ∃ u, (updateOrderStatus 1 OrderStatus.PROCESSING sampleDbOrders).1 =
      Except.ok u :=
  (claim_C6_status_machine 1 OrderStatus.PROCESSING sampleDbOrders
    sampleOrder rfl).1.mpr (by decide)

/-! ## Claim C7 -/

/-- Counterexample to C7 as stated: both requested ids exist (both are
product 1), yet the duplicated id makes the fetched row count (1)
differ from the request count (2), so `createOrder` fails with the
products-not-found `NotFoundError` — listing no missing ids at all. -/
theorem claim_C7_counterexample :
    (∀ id ∈ ([{ product_id := 1, quantity := 1 },
        { product_id := 1, quantity := 1 }] : List OrderItemInput).map
          (fun i => i.product_id),
      ∃ p ∈ sampleDb.products, p.id = id)
    ∧ (createOrder 7 [{ product_id := 1, quantity := 1 },
        { product_id := 1, quantity := 1 }] 99 sampleDb).1 =
        Except.error (OrderError.productsNotFound []) := by
  constructor
  · decide
  · rfl

/-- C7 amended: `createOrder` raises the products-not-found
`NotFoundError` iff the requested ids are not both duplicate-free and
all present in the store (the code compares the fetched row count with
the request count); when it does, the listed ids are exactly the
requested ids absent from the store — an empty list when the failure is
caused only by duplicated ids — and the store is unchanged. -/
theorem claim_C7_amended_not_found (cid now : Int)
    (items : List OrderItemInput) (db : Db)
    (hdb : (db.products.map (fun p => p.id)).Nodup) :
    ((∃ miss, (createOrder cid items now db).1 =
        Except.error (OrderError.productsNotFound miss)) ↔
      ¬ ((items.map (fun i => i.product_id)).Nodup ∧
          ∀ id ∈ items.map (fun i => i.product_id),
            ∃ p ∈ db.products, p.id = id))
    ∧ ∀ miss, (createOrder cid items now db).1 =
        Except.error (OrderError.productsNotFound miss) →
        miss = (items.map (fun i => i.product_id)).filter
          (fun id => ¬ (db.products.map (fun p => p.id)).contains id)
        ∧ (createOrder cid items now db).2 = db := by
  have hmemiff : (∀ a ∈ items.map (fun i => i.product_id),
      a ∈ db.products.map (fun p => p.id)) ↔
      (∀ id ∈ items.map (fun i => i.product_id),
        ∃ p ∈ db.products, p.id = id) := by
    constructor
    · intro h id hid
      obtain ⟨p, hp, he⟩ := List.mem_map.1 (h id hid)
      exact ⟨p, hp, he⟩
    · intro h a ha
      obtain ⟨p, hp, he⟩ := h a ha
      exact he ▸ List.mem_map_of_mem _ hp
  have hlenmap : (db.products.filter (fun p =>
      (items.map (fun i => i.product_id)).contains p.id)).length =
      ((db.products.map (fun p => p.id)).filter
        (fun a => (items.map (fun i => i.product_id)).contains a)).length := by
    rw [← map_id_filter_contains, List.length_map]
  have hfull : (db.products.filter (fun p =>
      (items.map (fun i => i.product_id)).contains p.id)).length =
      (items.map (fun i => i.product_id)).length ↔
      ((items.map (fun i => i.product_id)).Nodup ∧
        ∀ id ∈ items.map (fun i => i.product_id),
          ∃ p ∈ db.products, p.id = id) := by
    rw [hlenmap, filter_contains_length_eq_iff hdb]
    exact and_congr_right (fun _ => hmemiff)
  constructor
  · constructor
    · intro ⟨miss, hmiss⟩ hpos
      have hlen := hfull.2 hpos
      unfold createOrder at hmiss
      rw [if_neg (not_ne_iff.mpr hlen)] at hmiss
      cases hb : buildOrderItemsData
          (db.products.filter (fun p =>
            (items.map (fun i => i.product_id)).contains p.id)) items with
      | error e =>
        rw [hb] at hmiss
        dsimp only at hmiss
        simp only [Except.error.injEq] at hmiss
        rcases buildOrderItemsData_error_shape hb with h | ⟨n, a, r, h⟩ <;>
          simp [h] at hmiss
      | ok data =>
        rw [hb] at hmiss
        dsimp only at hmiss
        by_cases hcust : db.customers.any (fun c => c.id = cid) = true
        · rw [if_pos hcust] at hmiss
          simp at hmiss
        · rw [if_neg hcust] at hmiss
          simp at hmiss
    · intro hneg
      have hne : (db.products.filter (fun p =>
          (items.map (fun i => i.product_id)).contains p.id)).length ≠
          (items.map (fun i => i.product_id)).length :=
        fun he => hneg (hfull.1 he)
      refine ⟨(items.map (fun i => i.product_id)).filter
        (fun id => ¬ ((db.products.filter (fun p =>
          (items.map (fun i => i.product_id)).contains p.id)).map
            (fun p => p.id)).contains id), ?_⟩
      unfold createOrder
      rw [if_pos hne]
  · intro miss hmiss
    refine ⟨?_, createOrder_error_state hmiss⟩
    by_cases hne : (db.products.filter (fun p =>
        (items.map (fun i => i.product_id)).contains p.id)).length ≠
        (items.map (fun i => i.product_id)).length
    · unfold createOrder at hmiss
      rw [if_pos hne] at hmiss
      dsimp only at hmiss
      simp only [Except.error.injEq, OrderError.productsNotFound.injEq]
        at hmiss
      rw [← hmiss]
      apply List.filter_congr
      intro id hid
      have hfc : id ∈ (db.products.filter (fun p =>
          (items.map (fun i => i.product_id)).contains p.id)).map
            (fun p => p.id) ↔
          id ∈ db.products.map (fun p => p.id) := by
        rw [map_id_filter_contains]
        simp only [List.mem_filter]
        constructor
        · intro h; exact h.1
        · intro h; exact ⟨h, by simpa using hid⟩
      simp only [decide_eq_decide]
      constructor
      · intro h hc
        exact h (by simpa using hfc.2 (by simpa using hc))
      · intro h hc
        exact h (by simpa using hfc.1 (by simpa using hc))
    · push_neg at hne
      exfalso
      unfold createOrder at hmiss
      rw [if_neg (not_ne_iff.mpr hne)] at hmiss
      cases hb : buildOrderItemsData
          (db.products.filter (fun p =>
            (items.map (fun i => i.product_id)).contains p.id)) items with
      | error e =>
        rw [hb] at hmiss
        dsimp only at hmiss
        simp only [Except.error.injEq] at hmiss
        rcases buildOrderItemsData_error_shape hb with h | ⟨n, a, r, h⟩ <;>
          simp [h] at hmiss
      | ok data =>
        rw [hb] at hmiss
        dsimp only at hmiss
        by_cases hcust : db.customers.any (fun c => c.id = cid) = true
        · rw [if_pos hcust] at hmiss
          simp at hmiss
        · rw [if_neg hcust] at hmiss
          simp at hmiss

/-- Witness for the amended C7: requesting the nonexistent product 2
fails with the products-not-found error. -/
theorem claim_C7_amended_witness :
    ∃ miss, (createOrder 7 [{ product_id := 2, quantity := 1 }] 99
      sampleDb).1 = Except.error (OrderError.productsNotFound miss) :=
  (claim_C7_amended_not_found 7 99 [{ product_id := 2, quantity := 1 }]
    sampleDb (by decide)).1.mpr (by decide)

/-! ## Merge lemmas (claim C5) -/

theorem qtyOf_cons (x : CartItem) (l : List CartItem) (pid : Int) :
    qtyOf (x :: l) pid =
      (if x.product_id = pid then x.quantity else 0) + qtyOf l pid := by
  unfold qtyOf
  by_cases h : x.product_id = pid <;> simp [List.filter_cons, h]

theorem qtyOf_append (l1 l2 : List CartItem) (pid : Int) :
    qtyOf (l1 ++ l2) pid = qtyOf l1 pid + qtyOf l2 pid := by
  unfold qtyOf
  simp [List.filter_append]

theorem addQuantityFirst_qtyOf {l : List CartItem} {pid : Int}
    (hex : l.any (fun i => i.product_id = pid) = true) (dq qid : Int) :
    qtyOf (addQuantityFirst l pid dq) qid =
      qtyOf l qid + (if pid = qid then dq else 0) := by
  induction l with
  | nil => simp at hex
  | cons x l ih =>
    by_cases hx : x.product_id = pid
    · simp only [addQuantityFirst, if_pos hx]
      rw [qtyOf_cons, qtyOf_cons]
      by_cases hq : pid = qid
      · rw [if_pos (show ({ x with quantity := x.quantity + dq } :
            CartItem).product_id = qid from hx.trans hq),
          if_pos (hx.trans hq), if_pos hq]
        dsimp only
        omega
      · rw [if_neg (show ¬ ({ x with quantity := x.quantity + dq } :
            CartItem).product_id = qid from fun e => hq (hx.symm.trans e)),
          if_neg (fun e => hq (hx.symm.trans e)), if_neg hq]
        omega
    · simp only [addQuantityFirst, if_neg hx]
      have hex2 : l.any (fun i => i.product_id = pid) = true := by
        simpa [hx] using hex
      rw [qtyOf_cons, qtyOf_cons, ih hex2]
      omega

theorem mergeItem_qtyOf (acc : List CartItem) (s : CartItem) (pid : Int) :
    qtyOf (mergeItem acc s) pid =
      qtyOf acc pid + (if s.product_id = pid then s.quantity else 0) := by
  unfold mergeItem
  by_cases hc : acc.any (fun item => item.product_id = s.product_id) = true
  · rw [if_pos hc, addQuantityFirst_qtyOf hc]
  · rw [if_neg hc, qtyOf_append, qtyOf_cons]
    rw [show qtyOf [] pid = 0 from rfl, add_zero]

theorem foldl_mergeItem_qtyOf (sess : List CartItem) :
    ∀ (acc : List CartItem) (pid : Int),
      qtyOf (sess.foldl mergeItem acc) pid =
        qtyOf acc pid + qtyOf sess pid := by
  induction sess with
  | nil => intro acc pid; simp [qtyOf]
  | cons s sess ih =>
    intro acc pid
    rw [List.foldl_cons, ih, mergeItem_qtyOf, qtyOf_cons]
    omega

theorem mergeItem_map_pid (acc : List CartItem) (s : CartItem) :
    (mergeItem acc s).map (fun i => i.product_id) =
      if acc.any (fun i => i.product_id = s.product_id) = true
      then acc.map (fun i => i.product_id)
      else acc.map (fun i => i.product_id) ++ [s.product_id] := by
  unfold mergeItem
  by_cases hc : acc.any (fun item => item.product_id = s.product_id) = true
  · rw [if_pos hc, if_pos hc, addQuantityFirst_map_pid]
  · rw [if_neg hc, if_neg hc]
    simp

theorem mergeItem_mem_pid (acc : List CartItem) (s : CartItem) (pid : Int) :
    pid ∈ (mergeItem acc s).map (fun i => i.product_id) ↔
      pid ∈ acc.map (fun i => i.product_id) ∨ pid = s.product_id := by
  rw [mergeItem_map_pid]
  by_cases hc : acc.any (fun i => i.product_id = s.product_id) = true
  · rw [if_pos hc]
    constructor
    · exact Or.inl
    · intro h
      rcases h with h | h
      · exact h
      · obtain ⟨x, hx, he⟩ := List.any_eq_true.1 hc
        simp only [decide_eq_true_eq] at he
        subst h
        exact he ▸ List.mem_map_of_mem _ hx
  · rw [if_neg hc]
    simp

theorem foldl_mergeItem_mem_pid (sess : List CartItem) :
    ∀ (acc : List CartItem) (pid : Int),
      pid ∈ (sess.foldl mergeItem acc).map (fun i => i.product_id) ↔
        pid ∈ acc.map (fun i => i.product_id) ∨
          pid ∈ sess.map (fun i => i.product_id) := by
  induction sess with
  | nil => intro acc pid; simp
  | cons s sess ih =>
    intro acc pid
    rw [List.foldl_cons, ih, mergeItem_mem_pid]
    simp only [List.map_cons, List.mem_cons]
    tauto

theorem mem_addQuantityFirst_of_ne {l : List CartItem} {line : CartItem}
    (h : line ∈ l) (pid dq : Int) (hne : line.product_id ≠ pid) :
    line ∈ addQuantityFirst l pid dq := by
  induction l with
  | nil => simp at h
  | cons x l ih =>
    rcases List.mem_cons.1 h with rfl | h
    · rw [addQuantityFirst, if_neg hne]
      exact List.mem_cons_self _ _
    · by_cases hx : x.product_id = pid
      · rw [addQuantityFirst, if_pos hx]
        exact List.mem_cons_of_mem _ h
      · rw [addQuantityFirst, if_neg hx]
        exact List.mem_cons_of_mem _ (ih h)

theorem mem_mergeItem_of_ne {acc : List CartItem} {line : CartItem}
    (h : line ∈ acc) (s : CartItem)
    (hne : line.product_id ≠ s.product_id) : line ∈ mergeItem acc s := by
  unfold mergeItem
  by_cases hc : acc.any (fun item => item.product_id = s.product_id) = true
  · rw [if_pos hc]
    exact mem_addQuantityFirst_of_ne h _ _ hne
  · rw [if_neg hc]
    exact List.mem_append_left _ h

theorem foldl_mergeItem_mem_of_not_in_sess (sess : List CartItem) :
    ∀ (acc : List CartItem) (line : CartItem), line ∈ acc →
      line.product_id ∉ sess.map (fun i => i.product_id) →
      line ∈ sess.foldl mergeItem acc := by
  induction sess with
  | nil => intro acc line h _; simpa using h
  | cons s sess ih =>
    intro acc line h hn
    rw [List.foldl_cons]
    have hne : line.product_id ≠ s.product_id := by
      intro he; exact hn (by simp [he])
    exact ih _ line (mem_mergeItem_of_ne h s hne)
      (fun hm => hn (by simp [hm]))

theorem foldl_mergeItem_mem_of_sess (sess : List CartItem) :
    ∀ (acc : List CartItem) (s : CartItem), s ∈ sess →
      (sess.map (fun i => i.product_id)).Nodup →
      s.product_id ∉ acc.map (fun i => i.product_id) →
      s ∈ sess.foldl mergeItem acc := by
  induction sess with
  | nil => intro acc s h; simp at h
  | cons s0 sess ih =>
    intro acc s hmem hnd hnacc
    have hnd2 : (∀ x ∈ sess, ¬ x.product_id = s0.product_id) ∧
        (sess.map (fun i => i.product_id)).Nodup := by
      simpa using hnd
    rw [List.foldl_cons]
    rcases List.mem_cons.1 hmem with rfl | hmem
    · have hc : ¬ (acc.any (fun i => i.product_id = s.product_id) = true) := by
        simp only [List.any_eq_true, decide_eq_true_eq]
        rintro ⟨x, hx, he⟩
        exact hnacc (he ▸ List.mem_map_of_mem _ hx)
      have hin : s ∈ mergeItem acc s := by
        unfold mergeItem
        rw [if_neg hc]
        exact List.mem_append_right _ (by simp)
      refine foldl_mergeItem_mem_of_not_in_sess sess _ s hin ?_
      intro hm
      obtain ⟨x, hx, he⟩ := List.mem_map.1 hm
      exact hnd2.1 x hx he
    · apply ih _ s hmem hnd2.2
      intro hm
      rcases (mergeItem_mem_pid acc s0 s.product_id).1 hm with h | h
      · exact hnacc h
      · exact hnd2.1 s hmem h

theorem foldl_mergeItem_nodup (sess : List CartItem) :
    ∀ acc : List CartItem, (acc.map (fun i => i.product_id)).Nodup →
      ((sess.foldl mergeItem acc).map (fun i => i.product_id)).Nodup := by
  induction sess with
  | nil => intro acc h; simpa using h
  | cons s sess ih =>
    intro acc h
    rw [List.foldl_cons]
    apply ih
    rw [mergeItem_map_pid]
    by_cases hc : acc.any (fun i => i.product_id = s.product_id) = true
    · rw [if_pos hc]
      exact h
    · rw [if_neg hc]
      refine List.Nodup.append h (by simp) ?_
      intro a ha hb
      simp only [List.mem_singleton] at hb
      subst hb
      apply hc
      obtain ⟨x, hx, he⟩ := List.mem_map.1 ha
      exact List.any_eq_true.2 ⟨x, hx, by simp [he]⟩

theorem user_session_key_ne (a b : String) :
    ("cart:user:" ++ a) ≠ ("cart:session:" ++ b) := by
  intro h
  have hd : ("cart:user:" ++ a).data = ("cart:session:" ++ b).data := by
    rw [h]
  rw [String.data_append, String.data_append] at hd
  have h1 : ("cart:user:").data =
      ['c','a','r','t',':','u','s','e','r',':'] := rfl
  have h2 : ("cart:session:").data =
      ['c','a','r','t',':','s','e','s','s','i','o','n',':'] := rfl
  rw [h1, h2] at hd
  simp at hd

/-! ## Claim C5 -/

/-- C5: merging with an empty session cart returns the user cart
unchanged with no cache write or delete; otherwise the merged cart sums
the quantities of products in both carts (one line per product, the
invariant keeps ids unique), keeps lines present in only one cart
as-is, recomputes totals, is persisted under the user key, and the
session key is deleted.  The embedded `mergeCart` takes no product
store at all, mirroring that the source performs no stock re-validation
at merge time. -/
theorem claim_C5_mergeCart (userId : Int) (sessionId : String)
    (cache : Cache) (sessionCart userCart : Cart)
    (hu : userId ≠ 0) (hs : sessionId ≠ "")
    (hsc : getCart none (some sessionId) cache = Except.ok sessionCart)
    (huc : getCart (some userId) none cache = Except.ok userCart)
    (hund : (userCart.items.map (fun i => i.product_id)).Nodup)
    (hsnd : (sessionCart.items.map (fun i => i.product_id)).Nodup) :
    (sessionCart.items = [] →
      mergeCart userId sessionId cache = (Except.ok userCart, cache))
    ∧ (sessionCart.items ≠ [] →
      ∃ merged, mergeCart userId sessionId cache =
          (Except.ok merged,
           cacheDel
             (cacheSet cache ("cart:user:" ++ toString userId) merged)
             ("cart:session:" ++ sessionId))
        ∧ merged = calculateCart
            (sessionCart.items.foldl mergeItem userCart.items)
        ∧ cartCalcConsistent merged
        ∧ (∀ pid, qtyOf merged.items pid =
            qtyOf userCart.items pid + qtyOf sessionCart.items pid)
        ∧ (merged.items.map (fun i => i.product_id)).Nodup
        ∧ (∀ pid, pid ∈ merged.items.map (fun i => i.product_id) ↔
            pid ∈ userCart.items.map (fun i => i.product_id) ∨
              pid ∈ sessionCart.items.map (fun i => i.product_id))
        ∧ (∀ line ∈ userCart.items,
            line.product_id ∉
              sessionCart.items.map (fun i => i.product_id) →
            line ∈ merged.items)
        ∧ (∀ line ∈ sessionCart.items,
            line.product_id ∉ userCart.items.map (fun i => i.product_id) →
            line ∈ merged.items)
        ∧ cacheGet (mergeCart userId sessionId cache).2
            ("cart:user:" ++ toString userId) = some merged
        ∧ cacheGet (mergeCart userId sessionId cache).2
            ("cart:session:" ++ sessionId) = none) := by
  have hukey : getCartKey (some userId) none =
      Except.ok ("cart:user:" ++ toString userId) := by
    simp [getCartKey, hu]
  have hskey : getCartKey none (some sessionId) =
      Except.ok ("cart:session:" ++ sessionId) := by
    simp [getCartKey, hs]
  constructor
  · intro hempty
    unfold mergeCart
    rw [hsc, huc]
    dsimp only
    rw [if_pos (by simp [hempty])]
  · intro hne
    have heq : mergeCart userId sessionId cache =
        (Except.ok (calculateCart
            (sessionCart.items.foldl mergeItem userCart.items)),
         cacheDel
           (cacheSet cache ("cart:user:" ++ toString userId)
             (calculateCart
               (sessionCart.items.foldl mergeItem userCart.items)))
           ("cart:session:" ++ sessionId)) := by
      unfold mergeCart
      rw [hsc, huc]
      dsimp only
      rw [if_neg (by simpa using hne)]
      rw [saveCart_eval _ _ hukey]
      unfold clearCart
      rw [hskey]
    refine ⟨calculateCart (sessionCart.items.foldl mergeItem userCart.items),
      heq, rfl, calculateCart_calcConsistent _, ?_, ?_, ?_, ?_, ?_, ?_, ?_⟩
    · intro pid
      exact foldl_mergeItem_qtyOf sessionCart.items userCart.items pid
    · exact foldl_mergeItem_nodup sessionCart.items userCart.items hund
    · intro pid
      exact foldl_mergeItem_mem_pid sessionCart.items userCart.items pid
    · intro line hline hnot
      exact foldl_mergeItem_mem_of_not_in_sess sessionCart.items
        userCart.items line hline hnot
    · intro line hline hnot
      exact foldl_mergeItem_mem_of_sess sessionCart.items userCart.items
        line hline hsnd hnot
    · rw [heq]
      dsimp only
      rw [cacheGet_del_ne _ _ _ (fun e => user_session_key_ne _ _ e),
        cacheGet_set_self]
    · rw [heq]
      dsimp only
      exact cacheGet_del_self _ _

/-- A second sample cart line, product 2. -/
def sampleItem2 : CartItem :=
  { product_id := 2, quantity := 3, price := 10, name := "Gadget",
    imageUrl := none }

/-- A sample anonymous session cart holding three units of product 2. -/
def sampleSessionCart : Cart := calculateCart [sampleItem2]

/-- A sample cache holding user 7's cart and session cart "s". -/
def sampleCacheMerge : Cache :=
  [("cart:user:7", sampleCart), ("cart:session:s", sampleSessionCart)]

/-- Witness for C5: merging session "s" into user 7's cart persists the
merged cart under the user key, deletes the session key, and adds the
quantities per product. -/
theorem claim_C5_mergeCart_witness :
    ∃ merged, mergeCart 7 "s" sampleCacheMerge =
        (Except.ok merged,
         cacheDel
           (cacheSet sampleCacheMerge ("cart:user:" ++ toString (7 : Int))
             merged) ("cart:session:" ++ "s"))
      ∧ ∀ pid, qtyOf merged.items pid =
          qtyOf sampleCart.items pid + qtyOf sampleSessionCart.items pid := by
  obtain ⟨merged, heq, _, _, hqty, _⟩ :=
    (claim_C5_mergeCart 7 "s" sampleCacheMerge sampleSessionCart sampleCart
      (by decide) (by decide) rfl rfl (by decide) (by decide)).2 (by decide)
  exact ⟨merged, heq, hqty⟩
